import Mathlib

/-!
Verification of the melee-tools event-extraction engine.

Shallow embedding of the per-frame scanning functions of
`src/melee_tools` (combos.py, neutral.py, habits.py, clips.py,
techniques.py, iteration.py) over rational-number timelines.
Percent, position and velocity values are modelled as `ℚ`
(NaN-able columns as `Option ℚ`, `none` standing for NaN),
frame numbers and state codes as `ℤ`.
-/

namespace MeleeTools

/-! ### Python-style rounding

`round(x, n)` in Python rounds half to even (banker's rounding).
We model it exactly on rationals. -/

/-- Round a rational to the nearest integer, ties to even
(the semantics of Python's builtin `round`). -/
def roundHalfEven (x : ℚ) : ℤ :=
  let f : ℤ := ⌊x⌋
  let r : ℚ := x - (f : ℚ)
  if r < 1/2 then f
  else if 1/2 < r then f + 1
  else if f % 2 = 0 then f else f + 1

/-- Python `round(x, 1)`. -/
def pyRound1 (x : ℚ) : ℚ := ((roundHalfEven (10 * x) : ℤ) : ℚ) / 10

/-- Python `round(x, 2)`. -/
def pyRound2 (x : ℚ) : ℚ := ((roundHalfEven (100 * x) : ℤ) : ℚ) / 100

/-- Python `round(x, 3)`. -/
def pyRound3 (x : ℚ) : ℚ := ((roundHalfEven (1000 * x) : ℤ) : ℚ) / 1000

theorem roundHalfEven_intCast (n : ℤ) : roundHalfEven (n : ℚ) = n := by
  unfold roundHalfEven
  simp

theorem pyRound1_int_div_ten (k : ℤ) : pyRound1 ((k : ℚ) / 10) = (k : ℚ) / 10 := by
  unfold pyRound1
  rw [show (10 : ℚ) * ((k : ℚ) / 10) = (k : ℚ) by ring, roundHalfEven_intCast]

theorem pyRound1_idem (x : ℚ) : pyRound1 (pyRound1 x) = pyRound1 x := by
  unfold pyRound1
  rw [show (10 : ℚ) * (((roundHalfEven (10 * x) : ℤ) : ℚ) / 10)
        = ((roundHalfEven (10 * x) : ℤ) : ℚ) by ring, roundHalfEven_intCast]

theorem pyRound1_sub_pyRound1 (x y : ℚ) :
    pyRound1 (pyRound1 x - pyRound1 y) = pyRound1 x - pyRound1 y := by
  unfold pyRound1
  rw [show (10 : ℚ) * (((roundHalfEven (10 * x) : ℤ) : ℚ) / 10
        - ((roundHalfEven (10 * y) : ℤ) : ℚ) / 10)
        = (((roundHalfEven (10 * x) - roundHalfEven (10 * y) : ℤ)) : ℚ) by push_cast; ring,
      roundHalfEven_intCast]
  push_cast
  ring

/-! ### moves.py -/

/-- Embedding of `move_name` from `moves.py`: resolve a `last_attack_landed`
move id to its display name. -/
def moveName (m : ℤ) : String :=
  if m = 1 then "Misc"
  else if m = 2 then "Jab"
  else if m = 3 then "Jab 2"
  else if m = 4 then "Jab 3"
  else if m = 5 then "Rapid Jabs"
  else if m = 6 then "Dash Attack"
  else if m = 7 then "F-tilt"
  else if m = 8 then "U-tilt"
  else if m = 9 then "D-tilt"
  else if m = 10 then "F-smash"
  else if m = 11 then "U-smash"
  else if m = 12 then "D-smash"
  else if m = 13 then "Nair"
  else if m = 14 then "Fair"
  else if m = 15 then "Bair"
  else if m = 16 then "Uair"
  else if m = 17 then "Dair"
  else if m = 18 then "Neutral B"
  else if m = 19 then "Side B"
  else if m = 20 then "Up B"
  else if m = 21 then "Down B"
  else if m = 50 then "Getup Attack"
  else if m = 51 then "Getup Attack (Slow)"
  else if m = 52 then "Pummel"
  else if m = 53 then "F-throw"
  else if m = 54 then "B-throw"
  else if m = 55 then "U-throw"
  else if m = 56 then "D-throw"
  else if m = 61 then "Edge Attack (Slow)"
  else if m = 62 then "Edge Attack"
  else "Unknown (" ++ toString m ++ ")"

/-! ### iteration.py: `classify_direction` -/

/-- Embedding of `classify_direction` from `iteration.py`. -/
def classifyDirection (myX oppX facing : ℚ) (isForward : Bool) : String :=
  let oppInFacingDir := (facing > 0 ∧ oppX > myX) ∨ (facing < 0 ∧ oppX < myX)
  if oppInFacingDir then
    if isForward then "toward" else "away"
  else
    if isForward then "away" else "toward"

/-- C9: for any inputs with `x_a ≠ x_b`, `classify_direction` at
`is_forward = true` and `is_forward = false` returns the two complementary
labels toward/away, never the same label. -/
theorem classifyDirection_antisymm (myX oppX facing : ℚ) (h : myX ≠ oppX) :
    (classifyDirection myX oppX facing true = "toward"
      ∧ classifyDirection myX oppX facing false = "away")
    ∨ (classifyDirection myX oppX facing true = "away"
      ∧ classifyDirection myX oppX facing false = "toward") := by
  unfold classifyDirection
  by_cases hc : (facing > 0 ∧ oppX > myX) ∨ (facing < 0 ∧ oppX < myX)
  · left; simp [hc]
  · right; simp [hc]

/-- C9 witness: the antisymmetry property instantiated at concrete positions. -/
theorem classifyDirection_antisymm_witness :
    (classifyDirection 0 1 1 true = "toward"
      ∧ classifyDirection 0 1 1 false = "away")
    ∨ (classifyDirection 0 1 1 true = "away"
      ∧ classifyDirection 0 1 1 false = "toward") :=
  classifyDirection_antisymm 0 1 1 (by norm_num)

/-! ### combos.py: `detect_combos` -/

/-- Defender-side row of the frame DataFrame as read by `detect_combos`:
the `frame`, `percent` and `stocks` columns (`none` = NaN). -/
structure DefFrame where
  frame : ℤ
  percent : Option ℚ
  stocks : Option ℚ
deriving Repr, DecidableEq

/-- Combo record as built by the `_make_combo` closure in `detect_combos`. -/
structure Combo where
  start_frame : ℤ
  end_frame : ℤ
  damage : ℚ
  num_hits : ℕ
  started_by : String
  ended_by : String
  killed : Bool
  start_pct : ℚ
  end_pct : ℚ
  hit_moves : List String
  hit_frames : List ℤ
deriving Repr, DecidableEq

/-- Lookup in the Python dict built by `dict(zip(atk_frames, atk_lal))`:
for duplicate keys the later binding wins, absent keys give `none`.
The stored value is itself `Option ℤ` (`none` = NaN in the column). -/
def dictGet (m : List (ℤ × Option ℤ)) (f : ℤ) : Option (Option ℤ) :=
  (m.reverse.find? (fun p => p.1 == f)).map Prod.snd

/-- Move id attributed at a hit frame:
`int(atk_val) if atk_val is not None and not pd.isna(atk_val) else 0`. -/
def atkMoveId (m : List (ℤ × Option ℤ)) (f : ℤ) : ℤ :=
  match dictGet m f with
  | some (some v) => v
  | _ => 0

/-- Embedding of the `_make_combo` closure in `detect_combos`. -/
def mkCombo (sf ef : ℤ) (sp ep : ℚ) (nh : ℕ) (sb eb : ℤ) (killed : Bool)
    (hitSeq : List (ℤ × ℤ)) : Combo :=
  { start_frame := sf
    end_frame := ef
    damage := pyRound1 (pyRound1 ep - pyRound1 sp)
    num_hits := nh
    started_by := moveName sb
    ended_by := moveName eb
    killed := killed
    start_pct := pyRound1 sp
    end_pct := pyRound1 ep
    hit_moves := hitSeq.map (fun p => moveName p.2)
    hit_frames := hitSeq.map Prod.fst }

/-- Loop state of the `detect_combos` scan. -/
structure ComboScan where
  combos : List Combo
  in_combo : Bool
  start_frame : ℤ
  start_pct : ℚ
  last_hit_frame : ℤ
  num_hits : ℕ
  started_by : ℤ
  ended_by : ℤ
  current_pct : ℚ
  hit_sequence : List (ℤ × ℤ)
deriving Repr, DecidableEq

/-- The initial loop state of `detect_combos`. -/
def comboScanInit : ComboScan :=
  { combos := [], in_combo := false, start_frame := 0, start_pct := 0,
    last_hit_frame := 0, num_hits := 0, started_by := 0, ended_by := 0,
    current_pct := 0, hit_sequence := [] }

/-- The `stock_lost` test of `detect_combos`: both stock values non-NaN
and the current one strictly smaller. -/
def pairStockLost (a b : Option ℚ) : Bool :=
  match a, b with
  | some t0, some t1 => decide (t1 < t0)
  | _, _ => false

/-- The `if hit:` block of the `detect_combos` loop body: open a combo at
the current frame or extend the open one (`f` is `frames[i]`, `p0`/`p1` the
previous/current percents). -/
def comboHitPhase (atk : List (ℤ × Option ℤ)) (s : ComboScan) (p0 p1 : ℚ)
    (f : ℤ) (hit : Bool) : ComboScan :=
  if hit then
    let mid := atkMoveId atk f
    if s.in_combo then
      { s with num_hits := s.num_hits + 1,
               hit_sequence := s.hit_sequence ++ [(f, mid)],
               ended_by := mid, last_hit_frame := f, current_pct := p1 }
    else
      { s with in_combo := true, start_frame := f, start_pct := p0,
               started_by := mid, num_hits := 1, hit_sequence := [(f, mid)],
               ended_by := mid, last_hit_frame := f, current_pct := p1 }
  else s

/-- The three closing `if` blocks of the `detect_combos` loop body:
stock-loss close (clear kill), retroactive kill attribution on the most
recently closed combo (150-frame window), and gap close. -/
def comboClosePhase (gap : ℤ) (s1 : ComboScan) (f : ℤ)
    (hit stockLost : Bool) : ComboScan :=
  if s1.in_combo && stockLost then
    let c := mkCombo s1.start_frame f s1.start_pct s1.current_pct
      s1.num_hits s1.started_by s1.ended_by true s1.hit_sequence
    { s1 with combos := s1.combos ++ [c], in_combo := false }
  else if !s1.in_combo && stockLost then
    match s1.combos.getLast? with
    | none => s1
    | some last =>
      if !last.killed && decide (f - last.end_frame ≤ 150) then
        let last' := { last with killed := true, end_frame := f }
        { s1 with combos := s1.combos.dropLast ++ [last'] }
      else s1
  else if s1.in_combo && !hit && decide (f - s1.last_hit_frame > gap) then
    let c := mkCombo s1.start_frame s1.last_hit_frame s1.start_pct s1.current_pct
      s1.num_hits s1.started_by s1.ended_by false s1.hit_sequence
    { s1 with combos := s1.combos ++ [c], in_combo := false }
  else s1

/-- One iteration of the `detect_combos` loop, processing the adjacent row
pair `(i-1, i)`.  When either percent is NaN the iteration is skipped.
The retroactive kill window `_KILL_WINDOW` is 150 frames. -/
def comboStep (gap : ℤ) (atk : List (ℤ × Option ℤ)) (s : ComboScan)
    (prev cur : DefFrame) : ComboScan :=
  match prev.percent, cur.percent with
  | some p0, some p1 =>
    comboClosePhase gap
      (comboHitPhase atk s p0 p1 cur.frame (decide (p1 - p0 > 0)))
      cur.frame (decide (p1 - p0 > 0)) (pairStockLost prev.stocks cur.stocks)
  | _, _ => s

/-- The `for i in range(1, len(pct))` loop of `detect_combos`, walking
adjacent row pairs. -/
def comboScanGo (gap : ℤ) (atk : List (ℤ × Option ℤ)) :
    ComboScan → DefFrame → List DefFrame → ComboScan
  | s, _, [] => s
  | s, prev, cur :: rest => comboScanGo gap atk (comboStep gap atk s prev cur) cur rest

/-- Close any open combo at end of game (tail of `detect_combos`). -/
def comboFinalize (s : ComboScan) : List Combo :=
  if s.in_combo then
    s.combos ++ [mkCombo s.start_frame s.last_hit_frame s.start_pct s.current_pct
      s.num_hits s.started_by s.ended_by false s.hit_sequence]
  else s.combos

/-- Embedding of `detect_combos` from `combos.py`.  The attacker timeline is
given as the `(frame, last_attack_landed)` association from which the code
builds `_atk_lal_map`; the defender timeline as its list of rows. -/
def detectCombos (atk : List (ℤ × Option ℤ)) (defender : List DefFrame)
    (gap : ℤ) : List Combo :=
  match defender with
  | [] => comboFinalize comboScanInit
  | d0 :: rest => comboFinalize (comboScanGo gap atk comboScanInit d0 rest)

/-- Embedding of `_STRICTNESS_PRESETS` together with the
`.get(strictness, 45)` default used by `detect_combos_by_strictness`. -/
def strictnessPreset (n : ℤ) : ℤ :=
  if n = 0 then 0
  else if n = 1 then 45
  else if n = 2 then 90
  else if n = 3 then 180
  else 45

/-- The four gap tolerances reachable through `_STRICTNESS_PRESETS`. -/
def presetGaps : List ℤ :=
  [strictnessPreset 0, strictnessPreset 1, strictnessPreset 2, strictnessPreset 3]

/-! ### Per-combo record invariants (C8) -/

/-- The per-combo properties asserted by the spec's testable-properties
section: exact damage accounting and frame/hit sanity. -/
def ComboGood (c : Combo) : Prop :=
  c.damage = pyRound1 c.end_pct - pyRound1 c.start_pct
    ∧ c.start_frame ≤ c.end_frame ∧ 1 ≤ c.num_hits

theorem mkCombo_good {sf ef : ℤ} {sp ep : ℚ} {nh : ℕ} {sb eb : ℤ} {k : Bool}
    {hs : List (ℤ × ℤ)} (h1 : sf ≤ ef) (h2 : 1 ≤ nh) :
    ComboGood (mkCombo sf ef sp ep nh sb eb k hs) := by
  refine ⟨?_, h1, h2⟩
  show pyRound1 (pyRound1 ep - pyRound1 sp)
      = pyRound1 (pyRound1 ep) - pyRound1 (pyRound1 sp)
  rw [pyRound1_idem, pyRound1_idem, pyRound1_sub_pyRound1]

/-- Invariant of the `detect_combos` scan: `lo` is the frame number of the
row most recently visited. -/
def ScanInv (lo : ℤ) (s : ComboScan) : Prop :=
  (∀ c ∈ s.combos, ComboGood c ∧ c.end_frame ≤ lo)
    ∧ (s.in_combo = true → s.start_frame ≤ s.last_hit_frame
        ∧ s.last_hit_frame ≤ lo ∧ 1 ≤ s.num_hits)

theorem ScanInv.mono {lo lo' : ℤ} {s : ComboScan} (hlo : lo ≤ lo')
    (h : ScanInv lo s) : ScanInv lo' s := by
  obtain ⟨h1, h2⟩ := h
  exact ⟨fun c hc => ⟨(h1 c hc).1, le_trans (h1 c hc).2 hlo⟩,
         fun hin => ⟨(h2 hin).1, le_trans (h2 hin).2.1 hlo, (h2 hin).2.2⟩⟩

theorem comboHitPhase_inv {lo f : ℤ} (atk : List (ℤ × Option ℤ))
    (s : ComboScan) (p0 p1 : ℚ) (hit : Bool) (hlf : lo ≤ f)
    (h : ScanInv lo s) : ScanInv f (comboHitPhase atk s p0 p1 f hit) := by
  obtain ⟨cs, ic, sf, sp, lh, nh, sb, eb, cp, hsq⟩ := s
  obtain ⟨hcs, hopen⟩ := h
  cases hit with
  | false => exact ScanInv.mono hlf ⟨hcs, hopen⟩
  | true =>
    cases ic with
    | true =>
      refine ⟨fun c hc => ?_, fun _ => ?_⟩
      · exact ⟨(hcs c hc).1, le_trans (hcs c hc).2 hlf⟩
      · have hi := hopen rfl
        exact ⟨le_trans hi.1 (le_trans hi.2.1 hlf), le_refl _, Nat.le_succ_of_le hi.2.2⟩
    | false =>
      refine ⟨fun c hc => ?_, fun _ => ?_⟩
      · exact ⟨(hcs c hc).1, le_trans (hcs c hc).2 hlf⟩
      · exact ⟨le_refl _, le_refl _, le_refl _⟩

theorem comboClosePhase_inv {f : ℤ} (gap : ℤ) (s1 : ComboScan)
    (hit stockLost : Bool) (h : ScanInv f s1) :
    ScanInv f (comboClosePhase gap s1 f hit stockLost) := by
  obtain ⟨cs, ic, sf, sp, lh, nh, sb, eb, cp, hsq⟩ := s1
  obtain ⟨hcs, hopen⟩ := h
  simp only [ScanInv] at hcs hopen ⊢
  cases ic with
  | true =>
    have hi := hopen rfl
    cases stockLost with
    | true =>
      simp only [comboClosePhase, Bool.true_and, if_pos]
      refine ⟨fun c hc => ?_, by simp⟩
      rcases List.mem_append.1 hc with hm | hm
      · exact hcs c hm
      · simp only [List.mem_singleton] at hm
        subst hm
        exact ⟨mkCombo_good (le_trans hi.1 hi.2.1) hi.2.2, le_refl _⟩
    | false =>
      by_cases hgap : (decide (f - lh > gap)) = true
      · cases hit with
        | false =>
          simp only [comboClosePhase, Bool.and_false, Bool.false_eq_true, if_neg,
            Bool.not_false, Bool.not_true, Bool.true_and, Bool.and_true, hgap,
            if_pos, not_false_eq_true]
          refine ⟨fun c hc => ?_, by simp⟩
          rcases List.mem_append.1 hc with hm | hm
          · exact hcs c hm
          · simp only [List.mem_singleton] at hm
            subst hm
            exact ⟨mkCombo_good hi.1 hi.2.2, hi.2.1⟩
        | true =>
          simp only [comboClosePhase, Bool.and_false, Bool.false_eq_true, if_neg,
            Bool.not_true, Bool.true_and, Bool.false_and, not_false_eq_true]
          exact ⟨hcs, fun _ => hi⟩
      · have hgap' : (decide (f - lh > gap)) = false := by
          simpa using hgap
        simp only [comboClosePhase, Bool.and_false, Bool.false_eq_true, if_neg,
          Bool.not_false, Bool.not_true, Bool.true_and, Bool.and_true,
          Bool.false_and, hgap', not_false_eq_true]
        cases hit with
        | false => exact ⟨hcs, fun _ => hi⟩
        | true => exact ⟨hcs, fun _ => hi⟩
  | false =>
    cases stockLost with
    | false =>
      simp only [comboClosePhase, Bool.and_false, Bool.false_eq_true, if_neg,
        Bool.false_and, not_false_eq_true]
      exact ⟨hcs, fun hx => absurd hx (by simp)⟩
    | true =>
      simp only [comboClosePhase, Bool.false_and, Bool.false_eq_true, if_neg,
        Bool.not_false, Bool.true_and, if_pos, not_false_eq_true]
      cases hgl : cs.getLast? with
      | none => exact ⟨hcs, fun hx => absurd hx (by simp)⟩
      | some last =>
        by_cases hkw : (!last.killed && decide (f - last.end_frame ≤ 150)) = true
        · simp only [hkw, if_pos]
          refine ⟨fun c hc => ?_, fun hx => absurd hx (by simp)⟩
          rcases List.mem_append.1 hc with hm | hm
          · exact hcs c ((List.dropLast_sublist cs).mem hm)
          · simp only [List.mem_singleton] at hm
            subst hm
            have hlm : last ∈ cs := by
              have hsplit := List.dropLast_append_getLast? last hgl
              rw [← hsplit]
              exact List.mem_append.2 (Or.inr (List.mem_singleton.2 rfl))
            obtain ⟨⟨hd, hse, hnh⟩, hle⟩ := hcs last hlm
            exact ⟨⟨hd, le_trans hse hle, hnh⟩, le_refl _⟩
        · simp only [hkw, if_neg, Bool.false_eq_true, not_false_eq_true]
          exact ⟨hcs, fun hx => absurd hx (by simp)⟩

theorem comboStep_inv (gap : ℤ) (atk : List (ℤ × Option ℤ)) (s : ComboScan)
    (prev cur : DefFrame) (hf : prev.frame ≤ cur.frame)
    (h : ScanInv prev.frame s) :
    ScanInv cur.frame (comboStep gap atk s prev cur) := by
  obtain ⟨fp, pp, tp⟩ := prev
  obtain ⟨fc, pc, tc⟩ := cur
  simp only at hf
  cases pp with
  | none => cases pc <;> exact ScanInv.mono hf h
  | some p0 =>
  cases pc with
  | none => exact ScanInv.mono hf h
  | some p1 =>
  exact comboClosePhase_inv gap _ _ _
    (comboHitPhase_inv atk s p0 p1 _ hf h)

theorem comboScanGo_inv (gap : ℤ) (atk : List (ℤ × Option ℤ)) :
    ∀ (l : List DefFrame) (prev : DefFrame) (s : ComboScan),
      List.Chain (· ≤ ·) prev.frame (l.map (fun d => d.frame)) →
      ScanInv prev.frame s →
      ∃ lo, ScanInv lo (comboScanGo gap atk s prev l)
  | [], prev, s, _, h => ⟨prev.frame, h⟩
  | cur :: rest, prev, s, hch, h => by
    rw [List.map_cons] at hch
    cases hch with
    | cons hle hch' =>
      exact comboScanGo_inv gap atk rest cur (comboStep gap atk s prev cur) hch'
        (comboStep_inv gap atk s prev cur hle h)

theorem comboFinalize_good {lo : ℤ} {s : ComboScan} (h : ScanInv lo s) :
    ∀ c ∈ comboFinalize s, ComboGood c := by
  intro c hc
  obtain ⟨hcs, hopen⟩ := h
  unfold comboFinalize at hc
  by_cases hin : s.in_combo = true
  · rw [if_pos hin] at hc
    rcases List.mem_append.1 hc with hm | hm
    · exact (hcs c hm).1
    · simp only [List.mem_singleton] at hm
      subst hm
      have hi := hopen hin
      exact mkCombo_good hi.1 hi.2.2
  · rw [if_neg hin] at hc
    exact (hcs c hc).1

/-- C8: every combo returned by `detect_combos` satisfies
`damage == round(end_pct, 1) − round(start_pct, 1)` (exactly, in the
rational model of the floats), `start_frame ≤ end_frame`, and
`num_hits ≥ 1`, for any defender timeline whose frame column is
non-decreasing (the Timeline invariant). -/
theorem detectCombos_combo_sound (atk : List (ℤ × Option ℤ))
    (defender : List DefFrame) (gap : ℤ)
    (hmono : List.Chain' (· ≤ ·) (defender.map (fun d => d.frame))) :
    ∀ c ∈ detectCombos atk defender gap,
      c.damage = pyRound1 c.end_pct - pyRound1 c.start_pct
        ∧ c.start_frame ≤ c.end_frame ∧ 1 ≤ c.num_hits := by
  intro c hc
  suffices h : ComboGood c from h
  cases defender with
  | nil => simp [detectCombos, comboFinalize, comboScanInit] at hc
  | cons d0 rest =>
    have hch : List.Chain (· ≤ ·) d0.frame (rest.map (fun d => d.frame)) := hmono
    have hinit : ScanInv d0.frame comboScanInit := by
      constructor
      · intro x hx
        simp [comboScanInit] at hx
      · intro hin
        simp [comboScanInit] at hin
    obtain ⟨lo, hs⟩ := comboScanGo_inv gap atk rest d0 comboScanInit hch hinit
    exact comboFinalize_good hs c hc

/-- The attacker `(frame, last_attack_landed)` association of the spec's
worked example: move 14 lands at frame 105, move 10 at frame 141. -/
def exAtk : List (ℤ × Option ℤ) := [(105, some 14), (141, some 10)]

/-- The defender timeline of the spec's worked example: percent sequence
`[0,0,12,12,12,30,30]` at frames `[100,101,105,110,140,141,300]`. -/
def exDef : List DefFrame :=
  [⟨100, some 0, some 4⟩, ⟨101, some 0, some 4⟩, ⟨105, some 12, some 4⟩,
   ⟨110, some 12, some 4⟩, ⟨140, some 12, some 4⟩, ⟨141, some 30, some 4⟩,
   ⟨300, some 30, some 4⟩]

/-- The single combo that `detect_combos` produces on the worked example. -/
def exCombo : Combo := mkCombo 105 141 0 30 2 14 10 false [(105, 14), (141, 10)]

/-- C8 witness: the per-combo soundness properties evaluated on the spec's
worked example. -/
theorem detectCombos_combo_sound_witness :
    exCombo ∈ detectCombos exAtk exDef 45
      ∧ (exCombo.damage = pyRound1 exCombo.end_pct - pyRound1 exCombo.start_pct
        ∧ exCombo.start_frame ≤ exCombo.end_frame ∧ 1 ≤ exCombo.num_hits) := by
  have hout : detectCombos exAtk exDef 45 = [exCombo] := by
    with_unfolding_all rfl
  have hmem : exCombo ∈ detectCombos exAtk exDef 45 := by
    rw [hout]
    exact List.mem_singleton.2 rfl
  have hmono : List.Chain' (· ≤ ·) (exDef.map (fun d => d.frame)) := by
    rw [List.chain'_iff_pairwise]
    decide
  exact ⟨hmem, detectCombos_combo_sound exAtk exDef 45 hmono exCombo hmem⟩

/-- C2: when a stock loss is observed at a frame with no combo open and no
hit, the most recently closed combo is not yet killed, and the stock-loss
frame is within 150 frames of its `end_frame`, the `detect_combos` loop
body mutates that combo in place (`killed := true`, `end_frame` := the
stock-loss frame, all other fields unchanged), creates no new combo, and
increases the number of killed combos by exactly one. -/
theorem comboStep_retroactive_kill (gap : ℤ) (atk : List (ℤ × Option ℤ))
    (s : ComboScan) (prev cur : DefFrame) (p0 p1 : ℚ) (last : Combo)
    (hp : prev.percent = some p0) (hq : cur.percent = some p1)
    (hnohit : ¬ p1 - p0 > 0)
    (hsl : pairStockLost prev.stocks cur.stocks = true)
    (hopen : s.in_combo = false)
    (hlast : s.combos.getLast? = some last)
    (hnk : last.killed = false)
    (hwin : cur.frame - last.end_frame ≤ 150) :
    (comboStep gap atk s prev cur).combos
        = s.combos.dropLast ++ [{ last with killed := true, end_frame := cur.frame }]
      ∧ (comboStep gap atk s prev cur).in_combo = false
      ∧ (comboStep gap atk s prev cur).combos.length = s.combos.length
      ∧ ((comboStep gap atk s prev cur).combos.filter (fun c => c.killed)).length
          = (s.combos.filter (fun c => c.killed)).length + 1 := by
  have hhit : decide (p1 - p0 > 0) = false := decide_eq_false hnohit
  have hw : decide (cur.frame - last.end_frame ≤ 150) = true := decide_eq_true hwin
  have hstep : comboStep gap atk s prev cur
      = { s with combos := s.combos.dropLast
            ++ [{ last with killed := true, end_frame := cur.frame }] } := by
    simp only [comboStep, hp, hq, hhit, hsl]
    simp only [comboHitPhase, Bool.false_eq_true, if_neg, not_false_eq_true]
    simp only [comboClosePhase, hopen, hlast, hnk, hw, Bool.false_and,
      Bool.false_eq_true, if_neg, Bool.not_false, Bool.true_and, Bool.and_true,
      if_pos, not_false_eq_true]
  have hsplit : s.combos.dropLast ++ [last] = s.combos :=
    List.dropLast_append_getLast? last hlast
  refine ⟨by rw [hstep], by rw [hstep]; exact hopen, ?_, ?_⟩
  · rw [hstep]
    conv_rhs => rw [← hsplit]
    simp
  · rw [hstep]
    conv_rhs => rw [← hsplit]
    simp [List.filter_append, hnk]

/-- A concrete scan state holding one closed, not-yet-killed combo. -/
def exRetroState : ComboScan :=
  { comboScanInit with combos := [exCombo] }

/-! ### Hit accounting (C3, and the hit half of C4) -/

/-- The per-pair hit contribution of the `detect_combos` loop: the current
frame when both adjacent percents are non-NaN and their raw (unrounded)
difference is positive, nothing otherwise. -/
def pairHitContrib (prev cur : DefFrame) : List ℤ :=
  match prev.percent, cur.percent with
  | some p0, some p1 => if p1 - p0 > 0 then [cur.frame] else []
  | _, _ => []

/-- All hit frames of a defender timeline walked pairwise from the second
row on. -/
def hitFrameList : DefFrame → List DefFrame → List ℤ
  | _, [] => []
  | prev, cur :: rest => pairHitContrib prev cur ++ hitFrameList cur rest

/-- All hit frames of a defender timeline. -/
def hitFrames : List DefFrame → List ℤ
  | [] => []
  | d0 :: rest => hitFrameList d0 rest

/-- All hit frames recorded in a scan state: those inside closed combos
plus those of the currently open combo. -/
def scanHitFrames (s : ComboScan) : List ℤ :=
  s.combos.flatMap (fun c => c.hit_frames)
    ++ (if s.in_combo then s.hit_sequence.map Prod.fst else [])

theorem comboHitPhase_hitFrames (atk : List (ℤ × Option ℤ)) (s : ComboScan)
    (p0 p1 : ℚ) (f : ℤ) (hit : Bool) :
    scanHitFrames (comboHitPhase atk s p0 p1 f hit)
      = scanHitFrames s ++ (if hit then [f] else []) := by
  obtain ⟨cs, ic, sf, sp, lh, nh, sb, eb, cp, hsq⟩ := s
  cases hit with
  | false => simp [comboHitPhase]
  | true =>
    cases ic with
    | true => simp [comboHitPhase, scanHitFrames]
    | false => simp [comboHitPhase, scanHitFrames]

theorem comboClosePhase_hitFrames (gap : ℤ) (s1 : ComboScan) (f : ℤ)
    (hit stockLost : Bool) :
    scanHitFrames (comboClosePhase gap s1 f hit stockLost)
      = scanHitFrames s1 := by
  obtain ⟨cs, ic, sf, sp, lh, nh, sb, eb, cp, hsq⟩ := s1
  cases ic with
  | true =>
    cases stockLost with
    | true => simp [comboClosePhase, scanHitFrames, mkCombo]
    | false =>
      by_cases hgap : (decide (f - lh > gap)) = true
      · cases hit with
        | false =>
          simp [comboClosePhase, hgap, scanHitFrames, mkCombo]
        | true =>
          simp [comboClosePhase, hgap, scanHitFrames]
      · have hgap' : (decide (f - lh > gap)) = false := by simpa using hgap
        cases hit <;> simp [comboClosePhase, hgap', scanHitFrames]
  | false =>
    cases stockLost with
    | false => simp [comboClosePhase, scanHitFrames]
    | true =>
      cases hgl : cs.getLast? with
      | none => simp [comboClosePhase, hgl, scanHitFrames]
      | some last =>
        by_cases hkw : (!last.killed && decide (f - last.end_frame ≤ 150)) = true
        · have hsplit : cs.dropLast ++ [last] = cs :=
            List.dropLast_append_getLast? last hgl
          simp only [comboClosePhase, hgl, hkw, Bool.false_and, Bool.false_eq_true,
            if_neg, Bool.not_false, Bool.true_and, if_pos, not_false_eq_true,
            scanHitFrames]
          conv_rhs => rw [← hsplit]
          simp [List.flatMap_append]
        · have hkw' : (!last.killed && decide (f - last.end_frame ≤ 150)) = false := by
            simpa using hkw
          simp only [comboClosePhase, hgl, hkw', Bool.false_and, Bool.false_eq_true,
            if_neg, Bool.not_false, Bool.true_and, if_pos, not_false_eq_true]

theorem comboStep_hitFrames (gap : ℤ) (atk : List (ℤ × Option ℤ))
    (s : ComboScan) (prev cur : DefFrame) :
    scanHitFrames (comboStep gap atk s prev cur)
      = scanHitFrames s ++ pairHitContrib prev cur := by
  obtain ⟨fp, pp, tp⟩ := prev
  obtain ⟨fc, pc, tc⟩ := cur
  cases pp with
  | none => cases pc <;> simp [comboStep, pairHitContrib]
  | some p0 =>
  cases pc with
  | none => simp [comboStep, pairHitContrib]
  | some p1 =>
  show scanHitFrames (comboClosePhase gap (comboHitPhase atk s p0 p1 fc _) fc _ _) = _
  rw [comboClosePhase_hitFrames, comboHitPhase_hitFrames]
  by_cases hd : p1 - p0 > 0
  · simp [pairHitContrib, hd]
  · simp [pairHitContrib, hd]

theorem comboScanGo_hitFrames (gap : ℤ) (atk : List (ℤ × Option ℤ)) :
    ∀ (l : List DefFrame) (prev : DefFrame) (s : ComboScan),
      scanHitFrames (comboScanGo gap atk s prev l)
        = scanHitFrames s ++ hitFrameList prev l
  | [], prev, s => by simp [comboScanGo, hitFrameList]
  | cur :: rest, prev, s => by
    show scanHitFrames (comboScanGo gap atk (comboStep gap atk s prev cur) cur rest) = _
    rw [comboScanGo_hitFrames gap atk rest cur, comboStep_hitFrames, hitFrameList,
      List.append_assoc]

theorem comboFinalize_hitFrames (s : ComboScan) :
    (comboFinalize s).flatMap (fun c => c.hit_frames) = scanHitFrames s := by
  obtain ⟨cs, ic, sf, sp, lh, nh, sb, eb, cp, hsq⟩ := s
  cases ic with
  | true => simp [comboFinalize, scanHitFrames, mkCombo]
  | false => simp [comboFinalize, scanHitFrames]

/-- C3 (amended): the hit frames recorded by `detect_combos` are exactly
the frames whose raw (unrounded) percent difference over the previous row
is positive, both percents non-NaN; rounding to one decimal plays no part
in hit detection. -/
theorem detectCombos_hit_frames (atk : List (ℤ × Option ℤ))
    (defender : List DefFrame) (gap : ℤ) :
    (detectCombos atk defender gap).flatMap (fun c => c.hit_frames)
      = hitFrames defender := by
  cases defender with
  | nil => simp [detectCombos, comboFinalize, comboScanInit, hitFrames]
  | cons d0 rest =>
    show (comboFinalize (comboScanGo gap atk comboScanInit d0 rest)).flatMap _ = _
    rw [comboFinalize_hitFrames, comboScanGo_hitFrames]
    simp [scanHitFrames, comboScanInit, hitFrames]

/-- The defender timeline of the C3 counterexample: percent goes from
`10.0` to `10.04`, a raw increase that rounds away at one decimal. -/
def c3Def : List DefFrame := [⟨0, some 10, some 4⟩, ⟨1, some (251/25), some 4⟩]

/-- C3 counterexample: on `c3Def` the code records frame 1 as a hit
(one combo, hit frame 1), although the difference of the one-decimal
roundings of the two percents is 0, not positive.  So the per-step damage
is not computed from pre-rounded percents. -/
theorem detectCombos_hit_not_rounded :
    (detectCombos [] c3Def 45).flatMap (fun c => c.hit_frames) = [1]
      ∧ pyRound1 (251/25) - pyRound1 10 = 0 := by
  constructor
  · with_unfolding_all rfl
  · with_unfolding_all rfl

/-! ### Gap-tolerance monotonicity (C4) -/

/-- Total hits across all combos of a `detect_combos` result. -/
def sumNumHits (l : List Combo) : ℕ := (l.map (fun c => c.num_hits)).sum

/-- Bookkeeping invariant: `num_hits` always counts `hit_frames`. -/
def HitCountInv (s : ComboScan) : Prop :=
  (∀ c ∈ s.combos, c.num_hits = c.hit_frames.length)
    ∧ (s.in_combo = true → s.num_hits = s.hit_sequence.length)

theorem comboHitPhase_hitCount (atk : List (ℤ × Option ℤ)) (s : ComboScan)
    (p0 p1 : ℚ) (f : ℤ) (hit : Bool) (h : HitCountInv s) :
    HitCountInv (comboHitPhase atk s p0 p1 f hit) := by
  obtain ⟨cs, ic, sf, sp, lh, nh, sb, eb, cp, hsq⟩ := s
  obtain ⟨h1, h2⟩ := h
  cases hit with
  | false => exact ⟨h1, h2⟩
  | true =>
    cases ic with
    | true =>
      refine ⟨h1, fun _ => ?_⟩
      have hn : nh = hsq.length := h2 rfl
      simp [comboHitPhase, hn]
    | false =>
      refine ⟨h1, fun _ => ?_⟩
      simp [comboHitPhase]

theorem comboClosePhase_hitCount (gap : ℤ) (s1 : ComboScan) (f : ℤ)
    (hit stockLost : Bool) (h : HitCountInv s1) :
    HitCountInv (comboClosePhase gap s1 f hit stockLost) := by
  obtain ⟨cs, ic, sf, sp, lh, nh, sb, eb, cp, hsq⟩ := s1
  obtain ⟨h1, h2⟩ := h
  cases ic with
  | true =>
    have hn : nh = hsq.length := h2 rfl
    cases stockLost with
    | true =>
      constructor
      · intro c hc
        simp [comboClosePhase] at hc
        rcases hc with hm | hm
        · exact h1 c hm
        · subst hm
          simp [mkCombo, hn]
      · intro hin
        simp [comboClosePhase] at hin
    | false =>
      by_cases hgap : (decide (f - lh > gap)) = true
      · cases hit with
        | false =>
          simp only [comboClosePhase, Bool.and_false, Bool.false_eq_true, if_neg,
            Bool.not_false, Bool.not_true, Bool.true_and, Bool.and_true, hgap,
            if_pos, not_false_eq_true]
          refine ⟨fun c hc => ?_, by simp⟩
          rcases List.mem_append.1 hc with hm | hm
          · exact h1 c hm
          · simp only [List.mem_singleton] at hm
            subst hm
            simp [mkCombo, hn]
        | true =>
          simp only [comboClosePhase, Bool.and_false, Bool.false_eq_true, if_neg,
            Bool.not_true, Bool.true_and, Bool.false_and, not_false_eq_true]
          exact ⟨h1, fun _ => hn⟩
      · have hgap' : (decide (f - lh > gap)) = false := by simpa using hgap
        simp only [comboClosePhase, Bool.and_false, Bool.false_eq_true, if_neg,
          Bool.not_false, Bool.not_true, Bool.true_and, Bool.and_true,
          Bool.false_and, hgap', not_false_eq_true]
        cases hit with
        | false => exact ⟨h1, fun _ => hn⟩
        | true => exact ⟨h1, fun _ => hn⟩
  | false =>
    cases stockLost with
    | false =>
      simp only [comboClosePhase, Bool.and_false, Bool.false_eq_true, if_neg,
        Bool.false_and, not_false_eq_true]
      exact ⟨h1, h2⟩
    | true =>
      simp only [comboClosePhase, Bool.false_and, Bool.false_eq_true, if_neg,
        Bool.not_false, Bool.true_and, if_pos, not_false_eq_true]
      cases hgl : cs.getLast? with
      | none => exact ⟨h1, h2⟩
      | some last =>
        by_cases hkw : (!last.killed && decide (f - last.end_frame ≤ 150)) = true
        · simp only [hkw, if_pos]
          refine ⟨fun c hc => ?_, h2⟩
          rcases List.mem_append.1 hc with hm | hm
          · exact h1 c ((List.dropLast_sublist cs).mem hm)
          · simp only [List.mem_singleton] at hm
            subst hm
            have hlm : last ∈ cs := by
              have hsplit := List.dropLast_append_getLast? last hgl
              rw [← hsplit]
              exact List.mem_append.2 (Or.inr (List.mem_singleton.2 rfl))
            exact h1 last hlm
        · simp only [hkw, if_neg, Bool.false_eq_true, not_false_eq_true]
          exact ⟨h1, h2⟩

theorem comboStep_hitCount (gap : ℤ) (atk : List (ℤ × Option ℤ))
    (s : ComboScan) (prev cur : DefFrame) (h : HitCountInv s) :
    HitCountInv (comboStep gap atk s prev cur) := by
  obtain ⟨fp, pp, tp⟩ := prev
  obtain ⟨fc, pc, tc⟩ := cur
  cases pp with
  | none => cases pc <;> exact h
  | some p0 =>
  cases pc with
  | none => exact h
  | some p1 =>
  exact comboClosePhase_hitCount gap _ fc _ _
    (comboHitPhase_hitCount atk s p0 p1 fc _ h)

theorem comboScanGo_hitCount (gap : ℤ) (atk : List (ℤ × Option ℤ)) :
    ∀ (l : List DefFrame) (prev : DefFrame) (s : ComboScan),
      HitCountInv s → HitCountInv (comboScanGo gap atk s prev l)
  | [], _, _, h => h
  | cur :: rest, prev, s, h =>
    comboScanGo_hitCount gap atk rest cur (comboStep gap atk s prev cur)
      (comboStep_hitCount gap atk s prev cur h)

theorem comboFinalize_hitCount {s : ComboScan} (h : HitCountInv s) :
    ∀ c ∈ comboFinalize s, c.num_hits = c.hit_frames.length := by
  intro c hc
  obtain ⟨h1, h2⟩ := h
  unfold comboFinalize at hc
  by_cases hin : s.in_combo = true
  · rw [if_pos hin] at hc
    rcases List.mem_append.1 hc with hm | hm
    · exact h1 c hm
    · simp only [List.mem_singleton] at hm
      subst hm
      simp [mkCombo, h2 hin]
  · rw [if_neg hin] at hc
    exact h1 c hc

theorem detectCombos_hitCount (atk : List (ℤ × Option ℤ))
    (defender : List DefFrame) (gap : ℤ) :
    ∀ c ∈ detectCombos atk defender gap, c.num_hits = c.hit_frames.length := by
  have hinit : HitCountInv comboScanInit := ⟨by simp [comboScanInit], by simp [comboScanInit]⟩
  cases defender with
  | nil => exact comboFinalize_hitCount hinit
  | cons d0 rest =>
    exact comboFinalize_hitCount (comboScanGo_hitCount gap atk rest d0 comboScanInit hinit)

theorem sumNumHits_eq_length {l : List Combo}
    (h : ∀ c ∈ l, c.num_hits = c.hit_frames.length) :
    sumNumHits l = (l.flatMap (fun c => c.hit_frames)).length := by
  induction l with
  | nil => rfl
  | cons a t ih =>
    have ha := h a (List.mem_cons_self a t)
    have ht := ih (fun c hc => h c (List.mem_cons_of_mem a hc))
    simp only [sumNumHits, List.map_cons, List.sum_cons, List.flatMap_cons,
      List.length_append] at *
    rw [ha, ht]

/-- Total hits recorded by `detect_combos` equal the number of raw positive
percent steps, for every gap tolerance. -/
theorem detectCombos_sumNumHits (atk : List (ℤ × Option ℤ))
    (defender : List DefFrame) (gap : ℤ) :
    sumNumHits (detectCombos atk defender gap) = (hitFrames defender).length := by
  rw [sumNumHits_eq_length (detectCombos_hitCount atk defender gap),
    detectCombos_hit_frames]

/-- The number of combos a scan state will eventually contribute: closed
combos plus the open one. -/
def comboCount (s : ComboScan) : ℕ :=
  s.combos.length + (if s.in_combo then 1 else 0)

/-- Simulation relation between the scan states of the same timeline under
a tighter (`s1`) and a looser (`s2`) gap tolerance. -/
def GapSim (s1 s2 : ComboScan) : Prop :=
  (s1.in_combo = true → s2.in_combo = true ∧ s1.last_hit_frame = s2.last_hit_frame)
    ∧ comboCount s2 ≤ comboCount s1

theorem comboClosePhase_lhf (gap : ℤ) (s : ComboScan) (f : ℤ)
    (hit sl : Bool) :
    (comboClosePhase gap s f hit sl).last_hit_frame = s.last_hit_frame := by
  obtain ⟨cs, ic, sf, sp, lh, nh, sb, eb, cp, hsq⟩ := s
  simp only [comboClosePhase]
  repeat' split
  all_goals rfl

theorem comboClosePhase_count (gap : ℤ) (s : ComboScan) (f : ℤ)
    (hit sl : Bool) :
    comboCount (comboClosePhase gap s f hit sl) = comboCount s := by
  obtain ⟨cs, ic, sf, sp, lh, nh, sb, eb, cp, hsq⟩ := s
  cases ic with
  | true =>
    cases sl with
    | true => simp [comboClosePhase, comboCount]
    | false =>
      cases hit with
      | true => simp [comboClosePhase, comboCount]
      | false =>
        by_cases hgap : (decide (f - lh > gap)) = true
        · simp [comboClosePhase, comboCount, hgap]
        · have hgap' : (decide (f - lh > gap)) = false := by simpa using hgap
          simp [comboClosePhase, comboCount, hgap']
  | false =>
    cases sl with
    | false => simp [comboClosePhase, comboCount]
    | true =>
      cases hgl : cs.getLast? with
      | none => simp [comboClosePhase, comboCount, hgl]
      | some last =>
        have hsplit : cs.dropLast ++ [last] = cs :=
          List.dropLast_append_getLast? last hgl
        have hlen : cs.dropLast.length + 1 = cs.length := by
          conv_rhs => rw [← hsplit]
          simp
        by_cases hkw : (!last.killed && decide (f - last.end_frame ≤ 150)) = true
        · simp only [comboClosePhase, Bool.false_and, Bool.false_eq_true, if_neg,
            Bool.not_false, Bool.true_and, if_pos, not_false_eq_true, hgl, hkw,
            comboCount]
          simp
          omega
        · have hkw' : (!last.killed && decide (f - last.end_frame ≤ 150)) = false := by
            simpa using hkw
          simp only [comboClosePhase, Bool.false_and, Bool.false_eq_true, if_neg,
            Bool.not_false, Bool.true_and, if_pos, not_false_eq_true, hgl, hkw']

theorem comboClosePhase_in_eq (gap : ℤ) (s : ComboScan) (f : ℤ)
    (hit sl : Bool) :
    (comboClosePhase gap s f hit sl).in_combo
      = (s.in_combo && !sl && !(!hit && decide (f - s.last_hit_frame > gap))) := by
  obtain ⟨cs, ic, sf, sp, lh, nh, sb, eb, cp, hsq⟩ := s
  cases ic with
  | true =>
    cases sl with
    | true => simp [comboClosePhase]
    | false =>
      cases hit with
      | true => simp [comboClosePhase]
      | false =>
        by_cases hgap : (decide (f - lh > gap)) = true
        · simp [comboClosePhase, hgap]
        · have hgap' : (decide (f - lh > gap)) = false := by simpa using hgap
          simp [comboClosePhase, hgap']
  | false =>
    cases sl with
    | false => simp [comboClosePhase]
    | true =>
      cases hgl : cs.getLast? with
      | none => simp [comboClosePhase, hgl]
      | some last =>
        by_cases hkw : (!last.killed && decide (f - last.end_frame ≤ 150)) = true
        · simp only [comboClosePhase, Bool.false_and, Bool.false_eq_true, if_neg,
            Bool.not_false, Bool.true_and, if_pos, not_false_eq_true, hgl, hkw]
          try simp
        · have hkw' : (!last.killed && decide (f - last.end_frame ≤ 150)) = false := by
            simpa using hkw
          simp only [comboClosePhase, Bool.false_and, Bool.false_eq_true, if_neg,
            Bool.not_false, Bool.true_and, if_pos, not_false_eq_true, hgl, hkw']
          try simp

theorem comboHitPhase_sim (atk : List (ℤ × Option ℤ)) {s1 s2 : ComboScan}
    (p0 p1 : ℚ) (f : ℤ) (hit : Bool) (h : GapSim s1 s2) :
    GapSim (comboHitPhase atk s1 p0 p1 f hit) (comboHitPhase atk s2 p0 p1 f hit) := by
  obtain ⟨hin, hcnt⟩ := h
  cases hit with
  | false => exact ⟨hin, hcnt⟩
  | true =>
    obtain ⟨cs1, ic1, sf1, sp1, lh1, nh1, sb1, eb1, cp1, hsq1⟩ := s1
    obtain ⟨cs2, ic2, sf2, sp2, lh2, nh2, sb2, eb2, cp2, hsq2⟩ := s2
    simp only [comboCount] at hcnt
    cases ic1 with
    | true =>
      have h2 := hin rfl
      simp only at h2
      cases ic2 with
      | true =>
        refine ⟨fun _ => ⟨rfl, rfl⟩, ?_⟩
        simp only [comboHitPhase, comboCount, if_pos]
        simpa using hcnt
      | false => exact absurd h2.1 (by simp)
    | false =>
      cases ic2 with
      | true =>
        refine ⟨fun _ => ⟨rfl, rfl⟩, ?_⟩
        simp only [comboHitPhase, comboCount] at hcnt ⊢
        simp only [if_pos, if_neg] at hcnt ⊢
        simp at hcnt ⊢
        omega
      | false =>
        refine ⟨fun _ => ⟨rfl, rfl⟩, ?_⟩
        simp only [comboHitPhase, comboCount] at hcnt ⊢
        simp at hcnt ⊢
        omega

theorem comboClosePhase_sim {g1 g2 : ℤ} (hg : g1 ≤ g2) {s1 s2 : ComboScan}
    (f : ℤ) (hit sl : Bool) (h : GapSim s1 s2) :
    GapSim (comboClosePhase g1 s1 f hit sl) (comboClosePhase g2 s2 f hit sl) := by
  obtain ⟨hin, hcnt⟩ := h
  constructor
  · intro h1
    rw [comboClosePhase_in_eq] at h1
    simp only [Bool.and_eq_true, Bool.not_eq_true'] at h1
    obtain ⟨⟨hin1, hnsl⟩, hng⟩ := h1
    obtain ⟨hin2, hlhf⟩ := hin hin1
    constructor
    · rw [comboClosePhase_in_eq]
      simp only [Bool.and_eq_true, Bool.not_eq_true']
      refine ⟨⟨hin2, hnsl⟩, ?_⟩
      cases hit with
      | true => simp
      | false =>
        simp only [Bool.not_false, Bool.true_and] at hng ⊢
        have hle1 : ¬ (f - s1.last_hit_frame > g1) := by simpa using hng
        have hle2 : ¬ (f - s2.last_hit_frame > g2) := by
          rw [← hlhf]
          omega
        simpa using hle2
    · rw [comboClosePhase_lhf, comboClosePhase_lhf]
      exact hlhf
  · rw [comboClosePhase_count, comboClosePhase_count]
    exact hcnt

theorem comboStep_sim {g1 g2 : ℤ} (hg : g1 ≤ g2) (atk : List (ℤ × Option ℤ))
    {s1 s2 : ComboScan} (prev cur : DefFrame) (h : GapSim s1 s2) :
    GapSim (comboStep g1 atk s1 prev cur) (comboStep g2 atk s2 prev cur) := by
  obtain ⟨fp, pp, tp⟩ := prev
  obtain ⟨fc, pc, tc⟩ := cur
  cases pp with
  | none => cases pc <;> exact h
  | some p0 =>
  cases pc with
  | none => exact h
  | some p1 =>
  exact comboClosePhase_sim hg fc _ _ (comboHitPhase_sim atk p0 p1 fc _ h)

theorem comboScanGo_sim {g1 g2 : ℤ} (hg : g1 ≤ g2) (atk : List (ℤ × Option ℤ)) :
    ∀ (l : List DefFrame) (prev : DefFrame) (s1 s2 : ComboScan),
      GapSim s1 s2 →
      GapSim (comboScanGo g1 atk s1 prev l) (comboScanGo g2 atk s2 prev l)
  | [], _, _, _, h => h
  | cur :: rest, prev, s1, s2, h =>
    comboScanGo_sim hg atk rest cur _ _ (comboStep_sim hg atk prev cur h)

theorem comboFinalize_length (s : ComboScan) :
    (comboFinalize s).length = comboCount s := by
  obtain ⟨cs, ic, sf, sp, lh, nh, sb, eb, cp, hsq⟩ := s
  cases ic <;> simp [comboFinalize, comboCount]

/-- C4: over the `_STRICTNESS_PRESETS` gap values (0, 45, 90, 180), running
`detect_combos` with a larger `gap_frames` never increases the number of
combos and never decreases the total `num_hits` (the total is in fact
invariant), on every attacker/defender timeline pair. -/
theorem detectCombos_gap_monotone (atk : List (ℤ × Option ℤ))
    (defender : List DefFrame) (g1 g2 : ℤ)
    (hp1 : g1 ∈ presetGaps) (hp2 : g2 ∈ presetGaps) (hg : g1 ≤ g2) :
    (detectCombos atk defender g2).length ≤ (detectCombos atk defender g1).length
      ∧ sumNumHits (detectCombos atk defender g1)
          ≤ sumNumHits (detectCombos atk defender g2) := by
  constructor
  · cases defender with
    | nil => exact le_refl _
    | cons d0 rest =>
      have hinit : GapSim comboScanInit comboScanInit :=
        ⟨fun hh => by simp [comboScanInit] at hh, le_refl _⟩
      have hsim := comboScanGo_sim hg atk rest d0 comboScanInit comboScanInit hinit
      show (comboFinalize _).length ≤ (comboFinalize _).length
      rw [comboFinalize_length, comboFinalize_length]
      exact hsim.2
  · rw [detectCombos_sumNumHits, detectCombos_sumNumHits]

/-- C4 witness: the monotonicity instantiated on the worked example with
the strictest and the default presets. -/
theorem detectCombos_gap_monotone_witness :
    (detectCombos exAtk exDef 45).length ≤ (detectCombos exAtk exDef 0).length
      ∧ sumNumHits (detectCombos exAtk exDef 0) ≤ sumNumHits (detectCombos exAtk exDef 45) :=
  detectCombos_gap_monotone exAtk exDef 0 45 (by decide) (by decide) (by decide)

/-- C2 witness: the retroactive-kill mutation evaluated on a concrete state
and a concrete stock-loss row pair. -/
theorem comboStep_retroactive_kill_witness :
    (comboStep 45 exAtk exRetroState ⟨200, some 30, some 4⟩ ⟨220, some 30, some 3⟩).combos
        = [{ exCombo with killed := true, end_frame := 220 }]
      ∧ (comboStep 45 exAtk exRetroState ⟨200, some 30, some 4⟩ ⟨220, some 30, some 3⟩).in_combo = false
      ∧ (comboStep 45 exAtk exRetroState ⟨200, some 30, some 4⟩ ⟨220, some 30, some 3⟩).combos.length
          = exRetroState.combos.length
      ∧ ((comboStep 45 exAtk exRetroState ⟨200, some 30, some 4⟩ ⟨220, some 30, some 3⟩).combos.filter
            (fun c => c.killed)).length
          = (exRetroState.combos.filter (fun c => c.killed)).length + 1 := by
  have h := comboStep_retroactive_kill 45 exAtk exRetroState
    ⟨200, some 30, some 4⟩ ⟨220, some 30, some 3⟩ 30 30 exCombo
    rfl rfl (by norm_num) (by decide) rfl rfl (by decide) (by decide)
  exact ⟨by rw [h.1]; rfl, h.2.1, h.2.2.1, h.2.2.2⟩

/-! ### neutral.py: `find_neutral_openings`

The per-game scan of `find_neutral_openings`.  The per-game constant
passthrough columns (`character`, `stage`, `filename`) are omitted from the
row records; every varying field is modelled. -/

/-- A row of a player frame DataFrame as read by `find_neutral_openings`
(`none` = NaN). -/
structure NFrame where
  frame : ℤ
  state : Option ℤ
  percent : Option ℚ
  position_x : Option ℚ
  last_attack_landed : Option ℤ
deriving Repr, DecidableEq

/-- Membership in `_DAMAGE_STATES = set(range(75, 92)) | {357}`. -/
def isDamageState (s : ℤ) : Bool := (75 ≤ s && s < 92) || s == 357

/-- Membership in `_GRABBED_STATES` (category `grabbed` = 223..232, plus
211..214). -/
def isGrabbedState (s : ℤ) : Bool :=
  (223 ≤ s && s ≤ 232) || s == 211 || s == 212 || s == 213 || s == 214

/-- Membership in `_DEAD_STATES = set(range(0, 11))`. -/
def isDeadState (s : ℤ) : Bool := 0 ≤ s && s < 11

/-- Membership in `_SPAWN_STATES = {12, 13}`. -/
def isSpawnState (s : ℤ) : Bool := s == 12 || s == 13

/-- Embedding of `_is_non_neutral` over `_NON_NEUTRAL_STATES`. -/
def isNonNeutral (s : ℤ) : Bool :=
  isDamageState s || isGrabbedState s || isDeadState s || isSpawnState s

/-- Embedding of `OPENER_GROUPS.get(mv, "other")`. -/
def openerGroup (mv : String) : String :=
  if mv = "D-throw" ∨ mv = "F-throw" ∨ mv = "U-throw" ∨ mv = "B-throw" then "grab"
  else if mv = "Bair" ∨ mv = "Fair" ∨ mv = "Nair" ∨ mv = "Uair" ∨ mv = "Dair" then "aerial"
  else if mv = "Neutral B" ∨ mv = "Side B" then "projectile"
  else if mv = "Jab" ∨ mv = "Jab 2" ∨ mv = "Jab 3" ∨ mv = "Jab 4" then "jab"
  else if mv = "F-tilt" ∨ mv = "U-tilt" ∨ mv = "D-tilt" then "tilt"
  else if mv = "Dash Attack" then "dash_attack"
  else if mv = "F-smash" ∨ mv = "U-smash" ∨ mv = "D-smash" then "smash"
  else "other"

/-- Frame-indexed row lookup mirroring the `{f: i for i, f in enumerate(frames)}`
dictionaries: for a duplicated frame value the later row wins. -/
def rowAt (tl : List NFrame) (f : ℤ) : Option NFrame :=
  tl.reverse.find? (fun r => r.frame == f)

/-- Insertion into a sorted list of frame numbers. -/
def sortInsert (f : ℤ) : List ℤ → List ℤ
  | [] => [f]
  | a :: t => if f ≤ a then f :: a :: t else a :: sortInsert f t

/-- Insertion sort used to model `sorted(...)`. -/
def sortedList (l : List ℤ) : List ℤ := l.foldr sortInsert []

/-- Embedding of `sorted(set(my_frames) & set(opp_frames))`. -/
def frameSet (my opp : List NFrame) : List ℤ :=
  sortedList (((my.map (fun r => r.frame)).filter
    (fun f => (opp.map (fun r => r.frame)).contains f)).dedup)

/-- An emitted neutral-opening row (per-game constants omitted). -/
structure NeutralRow where
  outcome : String
  neutral_frames : ℤ
  opener_move : String
  opener_group : String
  my_pct : ℚ
  opp_pct : ℚ
  my_pos_x : ℚ
deriving Repr, DecidableEq

/-- The `neutral_start_*` variables while a neutral window is open. -/
structure NeutralStart where
  frame : ℤ
  my_pct : ℚ
  opp_pct : ℚ
  my_x : ℚ
deriving Repr, DecidableEq

/-- Row construction at the end of a neutral window: `move_id` is `None`
for NaN and falsy for 0, both giving `"unknown"`. -/
def mkNeutralRow (outcome : String) (nd : ℤ) (lal : Option ℤ)
    (st : NeutralStart) : NeutralRow :=
  let mv := match lal with
    | none => "unknown"
    | some mid => if mid = 0 then "unknown" else moveName mid
  { outcome := outcome, neutral_frames := nd, opener_move := mv,
    opener_group := openerGroup mv, my_pct := st.my_pct,
    opp_pct := st.opp_pct, my_pos_x := st.my_x }

/-- One iteration of the `for f in frame_set` loop of
`find_neutral_openings`.  Both row lookups succeed for every `f` in the
frame-set intersection; the fallthrough arm is unreachable there. -/
def neutralStep (minNF : ℤ) (my opp : List NFrame)
    (acc : List NeutralRow × Option NeutralStart) (f : ℤ) :
    List NeutralRow × Option NeutralStart :=
  match rowAt my f, rowAt opp f with
  | some mr, some orow =>
    let ms : ℤ := (mr.state).getD 0
    let os : ℤ := (orow.state).getD 0
    let bothFree := !isNonNeutral ms && !isNonNeutral os
    if bothFree then
      match acc.2 with
      | some _ => acc
      | none =>
        let st : NeutralStart :=
          { frame := f, my_pct := (mr.percent).getD 0,
            opp_pct := (orow.percent).getD 0, my_x := (mr.position_x).getD 0 }
        (acc.1, some st)
    else
      match acc.2 with
      | none => acc
      | some st =>
        let nd := f - st.frame
        if nd ≥ minNF then
          if isDamageState ms && !isDamageState os then
            (acc.1 ++ [mkNeutralRow "lost" nd mr.last_attack_landed st], none)
          else if isDamageState os && !isDamageState ms then
            (acc.1 ++ [mkNeutralRow "won" nd mr.last_attack_landed st], none)
          else
            (acc.1, none)
        else (acc.1, none)
  | _, _ => acc

/-- Embedding of the per-game scan of `find_neutral_openings` from
`neutral.py`.  In both outcome branches the source reads the ending move
from `my_lal[mi]`, the tag player's own timeline. -/
def findNeutralOpenings (my opp : List NFrame) (minNF : ℤ) : List NeutralRow :=
  ((frameSet my opp).foldl (neutralStep minNF my opp) ([], none)).1

/-- Failing input for C1, tag player's timeline: free at frames 0..14
(state 14), enters hitstun (state 75) at frame 15; its own
`last_attack_landed` holds the stale move 2 (Jab) throughout. -/
def c1My : List NFrame :=
  (List.range 15).map (fun i =>
    { frame := (i : ℤ), state := some 14, percent := some 0,
      position_x := some 0, last_attack_landed := some 2 })
    ++ [{ frame := 15, state := some 75, percent := some 10,
          position_x := some 0, last_attack_landed := some 2 }]

/-- Failing input for C1, opponent's timeline: free the whole time; its
`last_attack_landed` at frame 15 is move 14 (Fair), the move that actually
won neutral. -/
def c1Opp : List NFrame :=
  (List.range 15).map (fun i =>
    { frame := (i : ℤ), state := some 14, percent := some 0,
      position_x := some 0, last_attack_landed := some 0 })
    ++ [{ frame := 15, state := some 14, percent := some 0,
          position_x := some 0, last_attack_landed := some 14 }]

/-- C1 (code bug): on `c1My`/`c1Opp` the neutral window of length 15 ends
with only the tag player in a damage state, so the opponent won neutral;
the emitted record carries `opener_move = "Jab"`, read from the tag
player's (the loser's) own stale `last_attack_landed`, while the opener's
(opponent's) timeline at the window-ending frame holds move 14, "Fair". -/
theorem findNeutralOpenings_lost_reads_my_timeline :
    (findNeutralOpenings c1My c1Opp 15).map (fun r => (r.outcome, r.opener_move))
        = [("lost", "Jab")]
      ∧ (rowAt c1Opp 15).map (fun r => r.last_attack_landed) = some (some 14)
      ∧ moveName 14 = "Fair" := by
  refine ⟨?_, ?_, ?_⟩ <;> with_unfolding_all rfl

/-! ### habits.py: `analyze_knockdowns`

The per-game scan.  The `character`/`filename` passthrough columns are
omitted; `state` is modelled non-null because the source applies `int()`
to it unguarded in this scan (NaN would raise there). -/

/-- A row of the player's frame DataFrame as read by `analyze_knockdowns`. -/
structure KFrame where
  frame : ℤ
  state : ℤ
  airborne : Option Bool
  percent : Option ℚ
  position_x : ℚ
  direction : ℚ
deriving Repr, DecidableEq

/-- An opponent row as read by `_get_opp_x`. -/
structure OppPos where
  frame : ℤ
  position_x : ℚ
deriving Repr, DecidableEq

/-- Embedding of `_get_opp_x`: position of the first opponent row with
exactly this frame, `None` when absent. -/
def getOppX (opp : List OppPos) (f : ℤ) : Option ℚ :=
  (opp.find? (fun r => r.frame == f)).map (fun r => r.position_x)

/-- `{_TECH_IN_PLACE, _TECH_ROLL_F, _TECH_ROLL_B}` = {199, 200, 201}. -/
def isTechState (s : ℤ) : Bool := s == 199 || s == 200 || s == 201

/-- `_MISSED_BOUND` = {183, 191}. -/
def inMissedBound (s : ℤ) : Bool := s == 183 || s == 191

/-- `_MISSED_WAIT` = {184, 192}. -/
def inMissedWait (s : ℤ) : Bool := s == 184 || s == 192

/-- `_HIT_DOWN` = {185, 193}. -/
def inHitDown (s : ℤ) : Bool := s == 185 || s == 193

/-- `_GETUP` = {186, 194}. -/
def inGetup (s : ℤ) : Bool := s == 186 || s == 194

/-- `_GETUP_ATTACK` = {187, 195}. -/
def inGetupAttack (s : ℤ) : Bool := s == 187 || s == 195

/-- `_DOWN_ROLL_F` = {188, 196}. -/
def inDownRollF (s : ℤ) : Bool := s == 188 || s == 196

/-- `_DOWN_ROLL_B` = {189, 197}. -/
def inDownRollB (s : ℤ) : Bool := s == 189 || s == 197

/-- `_FALL_STATES` = {29, ..., 34}. -/
def isFallState (s : ℤ) : Bool := 29 ≤ s && s ≤ 34

/-- The lookahead-transparent sub-states of the missed-tech loop:
bounce (`_MISSED_BOUND`) and lying on the ground (`_MISSED_WAIT`). -/
def skipState (s : ℤ) : Bool := inMissedBound s || inMissedWait s

/-- A knockdown classification row (per-game constants omitted). -/
structure KdRow where
  option : String
  percent : Option ℚ
  frame : ℤ
deriving Repr, DecidableEq

/-- Embedding of the `_direction_at` closure of `analyze_knockdowns`. -/
def directionAt (my : List KFrame) (opp : List OppPos) (j : ℕ)
    (isFwd : Bool) : Option String :=
  match my[j]? with
  | none => none
  | some r =>
    match getOppX opp r.frame with
    | none => none
    | some ox => some (classifyDirection r.position_x ox r.direction isFwd)

/-- The `for j in range(pos + 1, min(pos + 300, len(my_df)))` lookahead of
the missed-tech scan, driven by explicit fuel (which the caller supplies
large enough that it never runs out before `stop`). -/
def missedTechLoop (my : List KFrame) (opp : List OppPos) (pct0 : Option ℚ)
    (stop : ℕ) : ℕ → ℕ → List KdRow
  | 0, _ => []
  | fuel + 1, j =>
    if j < stop then
      match my[j]? with
      | none => []
      | some r =>
        let s := r.state
        if skipState s then
          missedTechLoop my opp pct0 stop fuel (j + 1)
        else if isFallState s && (r.airborne).getD false then
          [⟨"slideoff", pct0, r.frame⟩]
        else if inHitDown s || isDamageState s then
          [⟨"hit while down", pct0, r.frame⟩]
        else if inGetup s then
          [⟨"getup", pct0, r.frame⟩]
        else if inGetupAttack s then
          [⟨"getup attack", pct0, r.frame⟩]
        else if inDownRollF s || inDownRollB s then
          match directionAt my opp j (inDownRollF s) with
          | some d => [⟨"roll " ++ d, pct0, r.frame⟩]
          | none => []
        else []
    else []

/-- The rows produced for one missed-tech (bounce) entry at row index
`pos`: percent is read at the knockdown row, then the bounded lookahead
classifies the first non-transparent state. -/
def missedTechClassify (my : List KFrame) (opp : List OppPos) (pos : ℕ) :
    List KdRow :=
  match my[pos]? with
  | none => []
  | some r =>
    let stop := min (pos + 300) my.length
    missedTechLoop my opp r.percent stop stop (pos + 1)

/-- Bounce-entry detection: `in_bound & ~in_bound.shift(1, fill_value=False)`. -/
def boundEntry (my : List KFrame) (pos : ℕ) : Bool :=
  match my[pos]? with
  | none => false
  | some r =>
    inMissedBound r.state &&
      (match pos with
       | 0 => true
       | p + 1 =>
         match my[p]? with
         | some pr => !inMissedBound pr.state
         | none => true)

/-- All rows of the missed-tech half of `analyze_knockdowns`. -/
def missedTechRows (my : List KFrame) (opp : List OppPos) : List KdRow :=
  ((List.range my.length).filter (fun pos => boundEntry my pos)).flatMap
    (fun pos => missedTechClassify my opp pos)

/-- Successful-tech entry detection over {199, 200, 201}. -/
def techEntry (my : List KFrame) (pos : ℕ) : Bool :=
  match my[pos]? with
  | none => false
  | some r =>
    isTechState r.state &&
      (match pos with
       | 0 => true
       | p + 1 =>
         match my[p]? with
         | some pr => !isTechState pr.state
         | none => true)

/-- Classification of one successful-tech entry. -/
def techClassify (my : List KFrame) (opp : List OppPos) (pos : ℕ) :
    List KdRow :=
  match my[pos]? with
  | none => []
  | some r =>
    if r.state == 199 then [⟨"tech in place", r.percent, r.frame⟩]
    else
      match directionAt my opp pos (r.state == 200) with
      | some d => [⟨"tech " ++ d, r.percent, r.frame⟩]
      | none => []

/-- Embedding of the per-game scan of `analyze_knockdowns` from
`habits.py`: successful techs first, then missed-tech followups. -/
def analyzeKnockdowns (my : List KFrame) (opp : List OppPos) : List KdRow :=
  ((List.range my.length).filter (fun pos => techEntry my pos)).flatMap
    (fun pos => techClassify my opp pos)
    ++ missedTechRows my opp

theorem missedTechLoop_sound (my : List KFrame) (opp : List OppPos)
    (pct0 : Option ℚ) (stop : ℕ) :
    ∀ (fuel j : ℕ),
      (missedTechLoop my opp pct0 stop fuel j).length ≤ 1
        ∧ ∀ row ∈ missedTechLoop my opp pct0 stop fuel j,
            row.percent = pct0
              ∧ ∃ i, j ≤ i ∧ i < stop
                  ∧ (∃ r, my[i]? = some r ∧ row.frame = r.frame
                      ∧ skipState r.state = false)
                  ∧ ∀ k, j ≤ k → k < i →
                      ∃ rk, my[k]? = some rk ∧ skipState rk.state = true := by
  intro fuel
  induction fuel with
  | zero =>
    intro j
    exact ⟨by simp [missedTechLoop], by simp [missedTechLoop]⟩
  | succ fuel ih =>
    intro j
    by_cases hj : j < stop
    · cases hr : my[j]? with
      | none =>
        constructor
        · simp [missedTechLoop, hj, hr]
        · intro row hrow
          simp [missedTechLoop, hj, hr] at hrow
      | some r =>
        by_cases hsk : skipState r.state = true
        · have hred : missedTechLoop my opp pct0 stop (fuel + 1) j
              = missedTechLoop my opp pct0 stop fuel (j + 1) := by
            simp [missedTechLoop, hj, hr, hsk]
          rw [hred]
          refine ⟨(ih (j + 1)).1, fun row hrow => ?_⟩
          obtain ⟨hpct, i, hji, his, hex, hall⟩ := (ih (j + 1)).2 row hrow
          refine ⟨hpct, i, by omega, his, hex, fun k hk1 hk2 => ?_⟩
          rcases Nat.eq_or_lt_of_le hk1 with hk | hk
          · subst hk
            exact ⟨r, hr, hsk⟩
          · exact hall k hk hk2
        · have hsk' : skipState r.state = false := by
            simpa using hsk
          have hterm : ∀ row ∈ missedTechLoop my opp pct0 stop (fuel + 1) j,
              row.percent = pct0 ∧ row.frame = r.frame := by
            intro row hrow
            simp only [missedTechLoop, hj, if_pos, hr, hsk', Bool.false_eq_true,
              if_neg, not_false_eq_true] at hrow
            split at hrow
            · simp at hrow
              exact ⟨by rw [hrow], by rw [hrow]⟩
            · split at hrow
              · simp at hrow
                exact ⟨by rw [hrow], by rw [hrow]⟩
              · split at hrow
                · simp at hrow
                  exact ⟨by rw [hrow], by rw [hrow]⟩
                · split at hrow
                  · simp at hrow
                    exact ⟨by rw [hrow], by rw [hrow]⟩
                  · split at hrow
                    · split at hrow
                      · simp at hrow
                        exact ⟨by rw [hrow], by rw [hrow]⟩
                      · simp at hrow
                    · simp at hrow
          constructor
          · simp only [missedTechLoop, hj, if_pos, hr, hsk', Bool.false_eq_true,
              if_neg, not_false_eq_true]
            split
            · simp
            · split
              · simp
              · split
                · simp
                · split
                  · simp
                  · split
                    · split
                      · simp
                      · simp
                    · simp
          · intro row hrow
            obtain ⟨hpct, hfr⟩ := hterm row hrow
            exact ⟨hpct, j, le_refl j, hj, ⟨r, hr, hfr, hsk'⟩,
              fun k hk1 hk2 => absurd (lt_of_le_of_lt hk1 hk2) (lt_irrefl j)⟩
    · constructor
      · simp [missedTechLoop, hj]
      · intro row hrow
        simp [missedTechLoop, hj] at hrow

/-- C5: for every missed-tech (bounce) entry, `analyze_knockdowns`
produces at most one classified option; its recorded percent is the
percent at the original knockdown row, and its frame is the first row
strictly after the bounce that is not a bounce/lying sub-state (all rows
in between are bounce/lying sub-states, which are never classifiable),
within the 300-row lookahead. -/
theorem missedTechClassify_sound (my : List KFrame) (opp : List OppPos)
    (pos : ℕ) :
    (missedTechClassify my opp pos).length ≤ 1
      ∧ ∀ row ∈ missedTechClassify my opp pos,
          row.percent = (my[pos]?).bind (fun r => r.percent)
            ∧ ∃ i, pos < i ∧ i < min (pos + 300) my.length
                ∧ (∃ r, my[i]? = some r ∧ row.frame = r.frame
                    ∧ skipState r.state = false)
                ∧ ∀ k, pos < k → k < i →
                    ∃ rk, my[k]? = some rk ∧ skipState rk.state = true := by
  cases hr : my[pos]? with
  | none =>
    constructor
    · simp [missedTechClassify, hr]
    · intro row hrow
      simp [missedTechClassify, hr] at hrow
  | some r =>
    have hred : missedTechClassify my opp pos
        = missedTechLoop my opp r.percent (min (pos + 300) my.length)
            (min (pos + 300) my.length) (pos + 1) := by
      simp [missedTechClassify, hr]
    rw [hred]
    have hs := missedTechLoop_sound my opp r.percent (min (pos + 300) my.length)
      (min (pos + 300) my.length) (pos + 1)
    refine ⟨hs.1, fun row hrow => ?_⟩
    obtain ⟨hpct, i, hji, his, hex, hall⟩ := hs.2 row hrow
    exact ⟨hpct, i, by omega, his, hex, fun k hk1 hk2 => hall k (by omega) hk2⟩

/-- Concrete knockdown scenario: bounce at frame 10, lying at frame 11,
getup at frame 12. -/
def kdMy : List KFrame :=
  [⟨10, 183, some false, some 50, 0, 1⟩, ⟨11, 184, some false, some 50, 0, 1⟩,
   ⟨12, 186, some false, some 55, 0, 1⟩]

/-- Opponent positions for the concrete knockdown scenario. -/
def kdOpp : List OppPos := [⟨10, 5⟩, ⟨11, 5⟩, ⟨12, 5⟩]

/-- C5 witness: the classification properties evaluated on the concrete
knockdown scenario (a getup at row index 2, percent 50 from the bounce
row). -/
theorem missedTechClassify_sound_witness :
    (missedTechClassify kdMy kdOpp 0).length ≤ 1
      ∧ ((⟨"getup", some 50, 12⟩ : KdRow).percent
            = (kdMy[0]?).bind (fun r => r.percent)
        ∧ ∃ i, 0 < i ∧ i < min (0 + 300) kdMy.length
            ∧ (∃ r, kdMy[i]? = some r
                ∧ (⟨"getup", some 50, 12⟩ : KdRow).frame = r.frame
                ∧ skipState r.state = false)
            ∧ ∀ k, 0 < k → k < i →
                ∃ rk, kdMy[k]? = some rk ∧ skipState rk.state = true) := by
  have hmem : (⟨"getup", some 50, 12⟩ : KdRow) ∈ missedTechClassify kdMy kdOpp 0 := by
    have hout : missedTechClassify kdMy kdOpp 0 = [⟨"getup", some 50, 12⟩] := by
      with_unfolding_all rfl
    rw [hout]
    exact List.mem_singleton.2 rfl
  exact ⟨(missedTechClassify_sound kdMy kdOpp 0).1,
    (missedTechClassify_sound kdMy kdOpp 0).2 ⟨"getup", some 50, 12⟩ hmem⟩

/-! ### clips.py: `find_edgeguards`

The per-game grouping scan over the opponent's frames.  Stage geometry is
the `edge_x` parameter; clip-row assembly and the `killed` output filter
are downstream of the grouping and not part of the scanned logic. -/

/-- An opponent row as read by `find_edgeguards` (`none` = NaN). -/
structure EgFrame where
  frame : ℤ
  position_x : Option ℚ
  position_y : Option ℚ
  percent : Option ℚ
  stocks : Option ℚ
deriving Repr, DecidableEq

/-- `offstage = (np.abs(opp_x) > edge_x) | (opp_y < -10)`; NaN compares
false on both sides. -/
def isOffstage (edgeX : ℚ) (r : EgFrame) : Bool :=
  (match r.position_x with
   | some x => decide (|x| > edgeX)
   | none => false)
  || (match r.position_y with
      | some y => decide (y < -10)
      | none => false)

/-- An edgeguard group as accumulated by `find_edgeguards`. -/
structure Edgeguard where
  start_frame : ℤ
  end_frame : ℤ
  hits : ℕ
  damage : ℚ
  killed : Bool
deriving Repr, DecidableEq

/-- One iteration of the `find_edgeguards` loop on the adjacent opponent
row pair `(i-1, i)`: NaN-percent skip, offstage-hit grouping with the
60-frame merge gap, then stock-loss close with the 150-frame kill window. -/
def egStep (edgeX : ℚ) (acc : List Edgeguard × Option Edgeguard)
    (prev cur : EgFrame) : List Edgeguard × Option Edgeguard :=
  match prev.percent, cur.percent with
  | some p0, some p1 =>
    let dmg := p1 - p0
    let hitOff := isOffstage edgeX cur && decide (dmg > 0)
    let stockLost := pairStockLost prev.stocks cur.stocks
    let acc1 :=
      if hitOff then
        match acc.2 with
        | none => (acc.1, some ⟨cur.frame, cur.frame, 1, pyRound1 dmg, false⟩)
        | some eg =>
          if cur.frame - eg.end_frame ≤ 60 then
            let eg' : Edgeguard :=
              { eg with end_frame := cur.frame, hits := eg.hits + 1,
                        damage := pyRound1 (eg.damage + dmg) }
            (acc.1, some eg')
          else
            (acc.1 ++ [eg], some ⟨cur.frame, cur.frame, 1, pyRound1 dmg, false⟩)
      else acc
    if stockLost then
      match acc1.2 with
      | some eg =>
        if cur.frame - eg.end_frame ≤ 150 then
          (acc1.1 ++ [{ eg with end_frame := cur.frame, killed := true }], none)
        else (acc1.1 ++ [eg], none)
      | none => acc1
    else acc1
  | _, _ => acc

/-- The `for i in range(1, len(opp_pct))` loop of `find_edgeguards`. -/
def egScanGo (edgeX : ℚ) :
    List Edgeguard × Option Edgeguard → EgFrame → List EgFrame →
      List Edgeguard × Option Edgeguard
  | acc, _, [] => acc
  | acc, prev, cur :: rest => egScanGo edgeX (egStep edgeX acc prev cur) cur rest

/-- Embedding of the per-game edgeguard grouping of `find_edgeguards`
from `clips.py`, including the final flush of an open group. -/
def findEdgeguardScan (edgeX : ℚ) (opp : List EgFrame) : List Edgeguard :=
  match opp with
  | [] => []
  | d0 :: rest =>
    let res := egScanGo edgeX ([], none) d0 rest
    match res.2 with
    | some eg => res.1 ++ [eg]
    | none => res.1

/-- The qualifying off-stage hits of the scan: `(frame, raw damage)` for
every adjacent pair with non-NaN percents, the current row off-stage and a
positive percent increase. -/
def egHits (edgeX : ℚ) : EgFrame → List EgFrame → List (ℤ × ℚ)
  | _, [] => []
  | prev, cur :: rest =>
    (match prev.percent, cur.percent with
     | some p0, some p1 =>
       if isOffstage edgeX cur && decide (p1 - p0 > 0) then
         [(cur.frame, p1 - p0)]
       else []
     | _, _ => []) ++ egHits edgeX cur rest

/-- The qualifying off-stage hits of a whole opponent timeline. -/
def egHitList (edgeX : ℚ) (opp : List EgFrame) : List (ℤ × ℚ) :=
  match opp with
  | [] => []
  | d0 :: rest => egHits edgeX d0 rest

/-- No `stock_lost` step anywhere in the pairwise walk. -/
def noStockLossFrom : EgFrame → List EgFrame → Bool
  | _, [] => true
  | prev, cur :: rest =>
    !pairStockLost prev.stocks cur.stocks && noStockLossFrom cur rest

/-- No `stock_lost` step anywhere in the opponent timeline. -/
def noStockLossList (opp : List EgFrame) : Bool :=
  match opp with
  | [] => true
  | d0 :: rest => noStockLossFrom d0 rest

/-- Modelled from the spec's grouping words (the reference side of the C6
refinement): consecutive qualifying hits at most 60 frames apart extend
the running group; a larger gap closes it and starts a new one. -/
def specGroupGo (cur : Edgeguard) : List (ℤ × ℚ) → List Edgeguard
  | [] => [cur]
  | (f, d) :: rest =>
    if f - cur.end_frame ≤ 60 then
      specGroupGo
        { cur with end_frame := f, hits := cur.hits + 1,
                   damage := pyRound1 (cur.damage + d) } rest
    else cur :: specGroupGo ⟨f, f, 1, pyRound1 d, false⟩ rest

/-- Modelled from the spec's grouping words: gap-tolerant grouping of the
qualifying hit list. -/
def specGapGrouping : List (ℤ × ℚ) → List Edgeguard
  | [] => []
  | (f, d) :: rest => specGroupGo ⟨f, f, 1, pyRound1 d, false⟩ rest

theorem egScanGo_no_stockloss (edgeX : ℚ) :
    ∀ (rest : List EgFrame) (prev : EgFrame) (done : List Edgeguard)
      (cur : Option Edgeguard),
      noStockLossFrom prev rest = true →
      (match (egScanGo edgeX (done, cur) prev rest).2 with
       | some eg => (egScanGo edgeX (done, cur) prev rest).1 ++ [eg]
       | none => (egScanGo edgeX (done, cur) prev rest).1)
        = done ++ (match cur with
            | none => specGapGrouping (egHits edgeX prev rest)
            | some eg => specGroupGo eg (egHits edgeX prev rest))
  | [], prev, done, cur, _ => by
    cases cur with
    | none => simp [egScanGo, egHits, specGapGrouping]
    | some eg => simp [egScanGo, egHits, specGroupGo]
  | c :: t, prev, done, cur, h => by
    show (match (egScanGo edgeX (egStep edgeX (done, cur) prev c) c t).2 with
       | some eg => (egScanGo edgeX (egStep edgeX (done, cur) prev c) c t).1 ++ [eg]
       | none => (egScanGo edgeX (egStep edgeX (done, cur) prev c) c t).1) = _
    obtain ⟨fp, xp, yp, pp, tp⟩ := prev
    obtain ⟨fc, xc, yc, pc, tc⟩ := c
    have hns : noStockLossFrom ⟨fc, xc, yc, pc, tc⟩ t = true := by
      simp only [noStockLossFrom, Bool.and_eq_true] at h
      exact h.2
    have hsl : pairStockLost tp tc = false := by
      simp only [noStockLossFrom, Bool.and_eq_true, Bool.not_eq_true'] at h
      exact h.1
    cases pp with
    | none =>
      cases pc with
      | none =>
        rw [show egStep edgeX (done, cur) ⟨fp, xp, yp, none, tp⟩ ⟨fc, xc, yc, none, tc⟩
              = (done, cur) from rfl,
          egScanGo_no_stockloss edgeX t _ done cur hns]
        simp [egHits]
      | some p1 =>
        rw [show egStep edgeX (done, cur) ⟨fp, xp, yp, none, tp⟩ ⟨fc, xc, yc, some p1, tc⟩
              = (done, cur) from rfl,
          egScanGo_no_stockloss edgeX t _ done cur hns]
        simp [egHits]
    | some p0 =>
      cases pc with
      | none =>
        rw [show egStep edgeX (done, cur) ⟨fp, xp, yp, some p0, tp⟩ ⟨fc, xc, yc, none, tc⟩
              = (done, cur) from rfl,
          egScanGo_no_stockloss edgeX t _ done cur hns]
        simp [egHits]
      | some p1 =>
        by_cases hoff : (isOffstage edgeX ⟨fc, xc, yc, some p1, tc⟩ = true ∧ p0 < p1)
        · cases cur with
          | none =>
            have hstep : egStep edgeX (done, none) ⟨fp, xp, yp, some p0, tp⟩ ⟨fc, xc, yc, some p1, tc⟩
                = (done, some ⟨fc, fc, 1, pyRound1 (p1 - p0), false⟩) := by
              simp [egStep, hoff, hsl]
            rw [hstep, egScanGo_no_stockloss edgeX t _ done _ hns]
            simp [egHits, hoff, specGapGrouping]
          | some eg =>
            by_cases hgap : (fc - eg.end_frame ≤ 60)
            · have hstep : egStep edgeX (done, some eg) ⟨fp, xp, yp, some p0, tp⟩ ⟨fc, xc, yc, some p1, tc⟩
                  = (done, some { eg with end_frame := fc, hits := eg.hits + 1,
                                          damage := pyRound1 (eg.damage + (p1 - p0)) }) := by
                simp [egStep, hoff, hsl, hgap]
              rw [hstep, egScanGo_no_stockloss edgeX t _ done _ hns]
              simp [egHits, hoff, specGroupGo, hgap]
            · have hstep : egStep edgeX (done, some eg) ⟨fp, xp, yp, some p0, tp⟩ ⟨fc, xc, yc, some p1, tc⟩
                  = (done ++ [eg], some ⟨fc, fc, 1, pyRound1 (p1 - p0), false⟩) := by
                simp [egStep, hoff, hsl, hgap]
              rw [hstep, egScanGo_no_stockloss edgeX t _ (done ++ [eg]) _ hns]
              simp [egHits, hoff, specGroupGo, hgap]
        · have hstep : egStep edgeX (done, cur) ⟨fp, xp, yp, some p0, tp⟩ ⟨fc, xc, yc, some p1, tc⟩
              = (done, cur) := by
            simp [egStep, hoff, hsl]
          rw [hstep, egScanGo_no_stockloss edgeX t _ done cur hns]
          simp [egHits, hoff]

/-- C6 (amended): in the absence of any observed stock loss, the edgeguard
groups produced by `find_edgeguards` are exactly the gap-tolerant grouping
of the qualifying off-stage hit frames: consecutive qualifying hits at most
60 frames apart share a group, a gap over 60 frames closes the group and
starts a new one. -/
theorem findEdgeguardScan_groups (edgeX : ℚ) (opp : List EgFrame)
    (h : noStockLossList opp = true) :
    findEdgeguardScan edgeX opp = specGapGrouping (egHitList edgeX opp) := by
  cases opp with
  | nil => rfl
  | cons d0 rest =>
    have hmain := egScanGo_no_stockloss edgeX rest d0 [] none h
    simpa [findEdgeguardScan, egHitList] using hmain

/-- The spec's edgeguard example: qualifying off-stage hits at frames 50,
70 and 200 (x beyond the 60-unit edge, percent increasing), no stock loss. -/
def egExample : List EgFrame :=
  [⟨49, some 100, some 0, some 0, some 4⟩,
   ⟨50, some 100, some 0, some 10, some 4⟩,
   ⟨70, some 100, some 0, some 20, some 4⟩,
   ⟨200, some 100, some 0, some 35, some 4⟩]

/-- C6 witness: the grouping refinement applied to the spec's example;
hits at 50, 70, 200 produce exactly two groups (20 ≤ 60 merges,
130 > 60 splits). -/
theorem findEdgeguardScan_groups_witness :
    noStockLossList egExample = true
      ∧ findEdgeguardScan 60 egExample = specGapGrouping (egHitList 60 egExample)
      ∧ (egHitList 60 egExample).map Prod.fst = [50, 70, 200]
      ∧ (findEdgeguardScan 60 egExample).length = 2 := by
  refine ⟨by with_unfolding_all decide, findEdgeguardScan_groups 60 egExample
    (by with_unfolding_all decide), ?_, ?_⟩
  · with_unfolding_all rfl
  · with_unfolding_all rfl

/-- The C6 counterexample input: qualifying off-stage hits at frames 10
and 20 with a stock loss observed at frame 15 in between. -/
def egSplitInput : List EgFrame :=
  [⟨9, some 100, some 0, some 0, some 4⟩,
   ⟨10, some 100, some 0, some 10, some 4⟩,
   ⟨15, some 100, some 0, some 10, some 3⟩,
   ⟨20, some 100, some 0, some 25, some 3⟩]

/-- C6 counterexample: qualifying hits at frames 10 and 20 lie 10 ≤ 60
frames apart, yet the scan yields two groups, because the stock loss at
frame 15 closed the first group; so the claim as stated (any two
qualifying hits at most 60 apart share a group) fails on the code. -/
theorem findEdgeguardScan_stockloss_splits :
    (egHitList 60 egSplitInput).map Prod.fst = [10, 20]
      ∧ ((20 : ℤ) - 10 ≤ 60)
      ∧ (findEdgeguardScan 60 egSplitInput).length = 2 := by
  refine ⟨?_, by norm_num, ?_⟩
  · with_unfolding_all rfl
  · with_unfolding_all rfl

/-! ### techniques.py: `detect_wavedashes` -/

/-- The columns of a player frame DataFrame as read by
`detect_wavedashes`; `velocity_self_x_ground` is `none` when the column is
absent from the DataFrame. -/
structure WDInput where
  states : List (Option ℤ)
  frames : List ℤ
  position_x : List (Option ℚ)
  direction : List (Option ℚ)
  velocity_self_x_ground : Option (List (Option ℚ))
deriving Repr, DecidableEq

/-- The `_s` helper of `detect_wavedashes`: state at an index, 0 for NaN
(and for an out-of-range index, which the scan never produces). -/
def wdState (st : List (Option ℤ)) (i : ℕ) : ℤ :=
  match st[i]? with
  | some (some v) => v
  | _ => 0

/-- `_GROUNDED` = {14, 20, 21, 22, 23, 39, 40, 41}. -/
def isGroundedState (s : ℤ) : Bool :=
  s == 14 || s == 20 || s == 21 || s == 22 || s == 23
    || s == 39 || s == 40 || s == 41

/-- The `while j < min(i + 15, n) and _s(j) == 24` advance through
consecutive jumpsquat frames, returning `js_end_i`. -/
def jsEnd (st : List (Option ℤ)) (stop : ℕ) : ℕ → ℕ → ℕ → ℕ
  | 0, cur, _ => cur
  | fuel + 1, cur, j =>
    if j < stop && wdState st j == 24 then jsEnd st stop fuel j (j + 1)
    else cur

/-- The air-dodge search over `range(first_air_i, min(first_air_i + 6, n))`:
the first 236 state, aborted early on a grounded state. -/
def findAirdodge (st : List (Option ℤ)) (stop : ℕ) : ℕ → ℕ → Option ℕ
  | 0, _ => none
  | fuel + 1, j =>
    if j < stop then
      if wdState st j == 236 then some j
      else if isGroundedState (wdState st j) then none
      else findAirdodge st stop fuel (j + 1)
    else none

/-- The landing search over `range(airdodge_i + 1, min(airdodge_i + 20, n))`:
the first grounded state. -/
def findLanding (st : List (Option ℤ)) (stop : ℕ) : ℕ → ℕ → Option ℕ
  | 0, _ => none
  | fuel + 1, k =>
    if k < stop then
      if isGroundedState (wdState st k) then some k
      else findLanding st stop fuel (k + 1)
    else none

/-- A wavedash row as produced by `detect_wavedashes`. -/
structure WDRow where
  frame : ℤ
  end_frame : ℤ
  pos_x : ℚ
  velx : ℚ
  slide_vel : ℚ
  late_frames : ℕ
  is_late : Bool
  facing : ℚ
  forward : Bool
  toward_opp : Option Bool
  angle_cat : String
deriving Repr, DecidableEq

/-- Lookup in `opp_x_map` (later duplicate frames win, as in a dict). -/
def oppXGet (m : List (ℤ × ℚ)) (f : ℤ) : Option ℚ :=
  (m.reverse.find? (fun p => p.1 == f)).map Prod.snd

/-- NaN-filled column access: `column.fillna(0)[k]`. -/
def colAt (l : List (Option ℚ)) (k : ℕ) : ℚ :=
  ((l[k]?).bind id).getD 0

/-- The `while i < n` scanner of `detect_wavedashes`, driven by fuel (the
index strictly increases every iteration, so `n` units suffice). -/
def wdScan (st : List (Option ℤ)) (frames : List ℤ)
    (posx dir velx : List (Option ℚ)) (oppMap : Option (List (ℤ × ℚ)))
    (n : ℕ) : ℕ → ℕ → List WDRow
  | 0, _ => []
  | fuel + 1, i =>
    if i < n then
      if wdState st i == 24 && !(wdState st (i - 1) == 24) then
        let facing := ((dir[i]?).bind id).getD 1
        let jsEndI := jsEnd st (min (i + 15) n) 15 i (i + 1)
        let firstAir := jsEndI + 1
        match findAirdodge st (min (firstAir + 6) n) 6 firstAir with
        | none => wdScan st frames posx dir velx oppMap n fuel firstAir
        | some adI =>
          let late := adI - firstAir
          match findLanding st (min (adI + 20) n) 20 (adI + 1) with
          | none => wdScan st frames posx dir velx oppMap n fuel (adI + 1)
          | some landI =>
            let vx := colAt velx landI
            if |vx| < (1/2 : ℚ) then
              wdScan st frames posx dir velx oppMap n fuel (landI + 1)
            else
              let px := colAt posx landI
              let slideVel := |vx|
              let towardOpp : Option Bool :=
                match oppMap with
                | none => none
                | some m =>
                  match oppXGet m ((frames[landI]?).getD 0) with
                  | none => none
                  | some ox =>
                    some (decide ((vx > 0 ∧ ox > px) ∨ (vx < 0 ∧ ox < px)))
              let angleCat :=
                if slideVel ≥ 3/2 then "flat"
                else if slideVel ≥ 4/5 then "moderate"
                else "steep"
              let row : WDRow :=
                { frame := (frames[i]?).getD 0,
                  end_frame := (frames[landI]?).getD 0,
                  pos_x := pyRound2 px, velx := pyRound3 vx,
                  slide_vel := pyRound3 slideVel, late_frames := late,
                  is_late := decide (late > 0), facing := facing,
                  forward := decide ((vx > 0 ∧ facing > 0) ∨ (vx < 0 ∧ facing < 0)),
                  toward_opp := towardOpp, angle_cat := angleCat }
              row :: wdScan st frames posx dir velx oppMap n fuel (landI + 1)
      else wdScan st frames posx dir velx oppMap n fuel (i + 1)
    else []

/-- Embedding of `detect_wavedashes` from `techniques.py`.  `opp` is the
optional `(frame, position_x.fillna(0))` association of the opponent. -/
def detectWavedashes (p : WDInput) (opp : Option (List (ℤ × ℚ))) :
    List WDRow :=
  match p.velocity_self_x_ground with
  | none => []
  | some velx =>
    wdScan p.states p.frames p.position_x p.direction velx opp
      p.states.length p.states.length 1

/-- C10: calling `detect_wavedashes` on a player DataFrame lacking the
`velocity_self_x_ground` column returns an empty result rather than
raising, regardless of all other columns. -/
theorem detectWavedashes_missing_column (states : List (Option ℤ))
    (frames : List ℤ) (posx dir : List (Option ℚ))
    (opp : Option (List (ℤ × ℚ))) :
    detectWavedashes ⟨states, frames, posx, dir, none⟩ opp = [] := rfl

theorem jsEnd_ge (st : List (Option ℤ)) (stop : ℕ) :
    ∀ (fuel cur j : ℕ), cur < j → cur ≤ jsEnd st stop fuel cur j := by
  intro fuel
  induction fuel with
  | zero => intro cur j _; exact le_refl cur
  | succ fuel ih =>
    intro cur j hcj
    show cur ≤ (if j < stop && wdState st j == 24 then jsEnd st stop fuel j (j + 1) else cur)
    by_cases hc : (j < stop && wdState st j == 24) = true
    · rw [if_pos hc]
      exact le_trans (le_of_lt hcj) (ih j (j + 1) (Nat.lt_succ_self j))
    · rw [if_neg hc]

theorem findAirdodge_sound (st : List (Option ℤ)) (stop : ℕ) :
    ∀ (fuel j ad : ℕ), findAirdodge st stop fuel j = some ad →
      j ≤ ad ∧ ad < stop ∧ wdState st ad = 236 := by
  intro fuel
  induction fuel with
  | zero => intro j ad h; simp [findAirdodge] at h
  | succ fuel ih =>
    intro j ad h
    simp only [findAirdodge] at h
    by_cases hj : j < stop
    · rw [if_pos hj] at h
      by_cases h236 : (wdState st j == 236) = true
      · rw [if_pos h236] at h
        cases h
        exact ⟨le_refl j, hj, by simpa using h236⟩
      · rw [if_neg h236] at h
        by_cases hgr : (isGroundedState (wdState st j)) = true
        · rw [if_pos hgr] at h
          cases h
        · rw [if_neg hgr] at h
          obtain ⟨h1, h2, h3⟩ := ih (j + 1) ad h
          exact ⟨by omega, h2, h3⟩
    · rw [if_neg hj] at h
      cases h

theorem findLanding_sound (st : List (Option ℤ)) (stop : ℕ) :
    ∀ (fuel k land : ℕ), findLanding st stop fuel k = some land →
      k ≤ land ∧ land < stop ∧ isGroundedState (wdState st land) = true := by
  intro fuel
  induction fuel with
  | zero => intro k land h; simp [findLanding] at h
  | succ fuel ih =>
    intro k land h
    simp only [findLanding] at h
    by_cases hk : k < stop
    · rw [if_pos hk] at h
      by_cases hgr : (isGroundedState (wdState st k)) = true
      · rw [if_pos hgr] at h
        cases h
        exact ⟨le_refl k, hk, hgr⟩
      · rw [if_neg hgr] at h
        obtain ⟨h1, h2, h3⟩ := ih (k + 1) land h
        exact ⟨by omega, h2, h3⟩
    · rw [if_neg hk] at h
      cases h

theorem wdScan_sound (st : List (Option ℤ)) (frames : List ℤ)
    (posx dir velx : List (Option ℚ)) (oppMap : Option (List (ℤ × ℚ)))
    (n : ℕ) :
    ∀ (fuel i : ℕ), ∀ row ∈ wdScan st frames posx dir velx oppMap n fuel i,
      ∃ js ad land, js < ad ∧ ad < land ∧ land < ad + 20 ∧ land < n
        ∧ wdState st js = 24 ∧ wdState st ad = 236
        ∧ isGroundedState (wdState st land) = true
        ∧ row.frame = (frames[js]?).getD 0
        ∧ row.end_frame = (frames[land]?).getD 0
        ∧ row.velx = pyRound3 (colAt velx land)
        ∧ row.slide_vel = pyRound3 |colAt velx land|
        ∧ (1/2 : ℚ) ≤ |colAt velx land| := by
  intro fuel
  induction fuel with
  | zero => intro i row h; simp [wdScan] at h
  | succ fuel ih =>
    intro i row h
    rw [wdScan] at h
    by_cases hi : i < n
    · rw [if_pos hi] at h
      by_cases hentry : (wdState st i == 24 && !(wdState st (i - 1) == 24)) = true
      · rw [if_pos hentry] at h
        simp only at h
        split at h
        next had => exact ih _ row h
        next adI had =>
          split at h
          next hld => exact ih _ row h
          next landI hld =>
            split at h
            next hvx => exact ih _ row h
            next hvx =>
              rcases List.mem_cons.1 h with hrow | hrow
              · subst hrow
                obtain ⟨ha1, ha2, ha3⟩ := findAirdodge_sound st _ 6 _ adI had
                obtain ⟨hl1, hl2, hl3⟩ := findLanding_sound st _ 20 _ landI hld
                have hje : i ≤ jsEnd st (min (i + 15) n) 15 i (i + 1) :=
                  jsEnd_ge st (min (i + 15) n) 15 i (i + 1) (Nat.lt_succ_self i)
                have hs24 : wdState st i = 24 := by
                  simp only [Bool.and_eq_true, beq_iff_eq] at hentry
                  exact hentry.1
                refine ⟨i, adI, landI, by omega, by omega, ?_, ?_, hs24, ha3, hl3,
                  rfl, rfl, rfl, rfl, le_of_not_lt hvx⟩
                · have := lt_min_iff.1 hl2
                  omega
                · exact (lt_min_iff.1 hl2).2
              · exact ih _ row hrow
      · rw [if_neg hentry] at h
        exact ih _ row h
    · rw [if_neg hi] at h
      cases h

/-- C7: every wavedash event emitted by `detect_wavedashes` comes from a
jumpsquat index, an air-dodge index and a grounded landing index found at
most 19 indices after the air-dodge (the `range(airdodge_i + 1,
min(airdodge_i + 20, n))` window) — a candidate with no grounded landing
in that window emits nothing — and its horizontal ground velocity at the
landing has magnitude at least the 0.5 noise floor. -/
theorem detectWavedashes_sound (p : WDInput) (opp : Option (List (ℤ × ℚ))) :
    ∀ row ∈ detectWavedashes p opp,
      ∃ velxCol js ad land,
        p.velocity_self_x_ground = some velxCol
          ∧ js < ad ∧ ad < land ∧ land < ad + 20 ∧ land < p.states.length
          ∧ wdState p.states js = 24 ∧ wdState p.states ad = 236
          ∧ isGroundedState (wdState p.states land) = true
          ∧ row.frame = (p.frames[js]?).getD 0
          ∧ row.end_frame = (p.frames[land]?).getD 0
          ∧ row.velx = pyRound3 (colAt velxCol land)
          ∧ row.slide_vel = pyRound3 |colAt velxCol land|
          ∧ (1/2 : ℚ) ≤ |colAt velxCol land| := by
  intro row h
  cases hv : p.velocity_self_x_ground with
  | none =>
    rw [show detectWavedashes p opp = [] by simp [detectWavedashes, hv]] at h
    cases h
  | some velxCol =>
    have hred : detectWavedashes p opp
        = wdScan p.states p.frames p.position_x p.direction velxCol opp
            p.states.length p.states.length 1 := by
      simp [detectWavedashes, hv]
    rw [hred] at h
    obtain ⟨js, ad, land, hrest⟩ :=
      wdScan_sound p.states p.frames p.position_x p.direction velxCol opp
        p.states.length p.states.length 1 row h
    exact ⟨velxCol, js, ad, land, rfl, hrest⟩

/-- A concrete wavedash: jumpsquat at indices 1–2, air dodge at 3, grounded
landing at 5 with ground velocity 2. -/
def wdExample : WDInput :=
  { states := [some 14, some 24, some 24, some 236, some 236, some 14],
    frames := [0, 1, 2, 3, 4, 5],
    position_x := [some 0, some 0, some 0, some 0, some 0, some 0],
    direction := [some 1, some 1, some 1, some 1, some 1, some 1],
    velocity_self_x_ground :=
      some [some 0, some 0, some 0, some 0, some 0, some 2] }

/-- C7 witness: the structural soundness property applied to the concrete
wavedash, whose single emitted row lands at index 5 with velocity 2. -/
theorem detectWavedashes_sound_witness :
    ∃ velxCol js ad land,
      wdExample.velocity_self_x_ground = some velxCol
        ∧ js < ad ∧ ad < land ∧ land < ad + 20 ∧ land < wdExample.states.length
        ∧ wdState wdExample.states js = 24 ∧ wdState wdExample.states ad = 236
        ∧ isGroundedState (wdState wdExample.states land) = true
        ∧ (⟨1, 5, 0, 2, 2, 0, false, 1, true, none, "flat"⟩ : WDRow).frame
            = (wdExample.frames[js]?).getD 0
        ∧ (⟨1, 5, 0, 2, 2, 0, false, 1, true, none, "flat"⟩ : WDRow).end_frame
            = (wdExample.frames[land]?).getD 0
        ∧ (⟨1, 5, 0, 2, 2, 0, false, 1, true, none, "flat"⟩ : WDRow).velx
            = pyRound3 (colAt velxCol land)
        ∧ (⟨1, 5, 0, 2, 2, 0, false, 1, true, none, "flat"⟩ : WDRow).slide_vel
            = pyRound3 |colAt velxCol land|
        ∧ (1/2 : ℚ) ≤ |colAt velxCol land| := by
  have hmem : (⟨1, 5, 0, 2, 2, 0, false, 1, true, none, "flat"⟩ : WDRow)
      ∈ detectWavedashes wdExample none := by
    have hout : detectWavedashes wdExample none
        = [⟨1, 5, 0, 2, 2, 0, false, 1, true, none, "flat"⟩] := by
      with_unfolding_all rfl
    rw [hout]
    exact List.mem_singleton.2 rfl
  exact detectWavedashes_sound wdExample none _ hmem

end MeleeTools
